import Mathlib

/-!
# Asset baker (`asset_baker/asset_main.cpp`): embedding and verification

The development follows the source file top to bottom.

* Strings are Lean strings; `std::filesystem::path` values are strings too, and the few
  path operations the program uses are written over the character list of the string, for
  the POSIX form of paths (the slash is the one separator).
* `f64` time stamps: `lastModifiedTimeStamp` casts the integer tick count of
  `fs::last_write_time` to `f64`, so every time stamp the program produces is an
  integer-valued double.  Time stamps are integers here.
* `std::unordered_map<std::string, AssetBakeCachedItem>` is an association list whose order
  stands for the (unspecified) iteration order; `find` and `operator[]` are `Cache.find` and
  `Cache.assign`.
* The external libraries (stb_image, Compressonator, nlohmann::json, the asset packer, the
  file system) are inputs of the model: a `World` of oracles, a `FileSystem`, and JSON values
  in place of JSON text (`parse (dump j) = j` is taken from the library).
* A failed `assert`, an uncaught exception and undefined behaviour are outcomes of their own.
-/

namespace AssetBaker

/-! ## Outcomes -/

/-- Result of running a piece of the program: `aborted` is a failed `assert` or an uncaught
exception (the process terminates), `undefined` is undefined behaviour (a `memcpy` outside
its buffers), `returned a` is a normal return. -/
inductive Outcome (α : Type) where
  | aborted : Outcome α
  | undefined : Outcome α
  | returned (a : α) : Outcome α
  deriving DecidableEq, Repr

/-- Sequencing of outcomes. -/
def Outcome.bind {α β : Type} : Outcome α → (α → Outcome β) → Outcome β
  | .aborted, _ => .aborted
  | .undefined, _ => .undefined
  | .returned a, f => f a

/-- The outcomes of a list of steps run in order: the results of all of them, or the first
outcome that is not a return. -/
def Outcome.sequence {α : Type} : List (Outcome α) → Outcome (List α)
  | [] => .returned []
  | x :: xs => x.bind (fun a => (Outcome.sequence xs).bind (fun rest => .returned (a :: rest)))

/-- Conversion to a 32 bit unsigned integer (`u32`, `CMP_DWORD`). -/
def u32 (n : Nat) : Nat := n % 2 ^ 32

/-! ## Characters, strings, paths -/

/-- The double quote character. -/
def dquote : Char := Char.ofNat 34

/-- The backslash character. -/
def backslash : Char := Char.ofNat 92

/-- The line feed character. -/
def newline : Char := Char.ofNat 10

/-- The directory separator of `std::filesystem::path` in its POSIX form, where the slash
alone separates components, the preferred separator is the slash, and a backslash is an
ordinary character of a file name. -/
def isSeparator (c : Char) : Bool := c == '/'

/-- Characters of `path::filename()`: what follows the last directory separator. -/
def filenameChars (p : List Char) : List Char :=
  (p.reverse.takeWhile (fun c => !isSeparator c)).reverse

/-- Characters of `path::extension()` for a file name `f`: empty for `.` and `..`, empty when
`f` has no dot or its only dot is its first character, else the part from the last dot on. -/
def extensionChars (f : List Char) : List Char :=
  if f = ['.'] ∨ f = ['.', '.'] then []
  else if f.all (fun c => c != '.') then []
  else
    let tail := (f.reverse.takeWhile (fun c => c != '.')).reverse
    if tail.length + 1 = f.length then [] else '.' :: tail

/-- Source: `path::filename()`. -/
def filename (p : String) : String := String.mk (filenameChars p.data)

/-- Source: `path::extension()`. -/
def extension (p : String) : String := String.mk (extensionChars (filenameChars p.data))

/-- Source: `path::replace_extension(replacement)`: drops the extension, then appends the
replacement (with a dot in front when it is not empty and does not start with one). -/
def replace_extension (p : String) (replacement : String) : String :=
  let ext := extensionChars (filenameChars p.data)
  let base := p.data.take (p.data.length - ext.length)
  let repl := match replacement.data with
    | [] => []
    | c :: cs => if c = '.' then c :: cs else '.' :: c :: cs
  String.mk (base ++ repl)

/-- Source: `operator/` on paths, for a relative right operand: the operands joined by the
preferred separator, the slash (none when the left operand is empty or already ends in a
separator). -/
def pathAppend (a b : String) : String :=
  match a.data.getLast? with
  | none => b
  | some c => if isSeparator c then a ++ b else a ++ "/" ++ b

/-- The struct `bakedExtensions`. -/
structure BakedExtensions where
  texture : String
  cubeMap : String
  model : String

/-- Source: the global `bakedExtensions`. -/
def bakedExtensions : BakedExtensions := ⟨".tx", ".cbtx", ".modl"⟩

/-- Source: `replace(str, oldTokens, oldTokensCount, newToken)`: every character equal to one
of the first `oldTokensCount` old tokens becomes `newToken`. -/
def replace (str : String) (oldTokens : List Char) (oldTokensCount : Nat) (newToken : Char) :
    String :=
  String.mk (str.data.map (fun c =>
    if (oldTokens.take oldTokensCount).any (fun t => c == t) then newToken else c))

/-- Source: `replaceBackSlashes`: every backslash becomes a slash. -/
def replaceBackSlashes (str : String) : String :=
  String.mk (str.data.map (fun c => if c == backslash then '/' else c))

/-! ## The cache -/

/-- Source: `AssetBakeCachedItem::BakedFile`. -/
structure BakedFile where
  path : String
  ext : String
  name : String
  deriving DecidableEq, Repr

/-- Source: `AssetBakeCachedItem`. -/
structure AssetBakeCachedItem where
  originalFileName : String
  originalFileLastModified : Int
  bakedFiles : List BakedFile
  deriving DecidableEq, Repr

/-- Source: `std::unordered_map<std::string, AssetBakeCachedItem>`, as an association list. -/
abbrev Cache := List (String × AssetBakeCachedItem)

/-- Source: `unordered_map::find`: the record stored under `key`, if any. -/
def Cache.find : Cache → String → Option AssetBakeCachedItem
  | [], _ => none
  | (k, v) :: rest, key => if k = key then some v else Cache.find rest key

/-- Source: `cache[key] = item`: replaces the record under an existing key, else adds one. -/
def Cache.assign : Cache → String → AssetBakeCachedItem → Cache
  | [], key, item => [(key, item)]
  | (k, v) :: rest, key, item =>
    if k = key then (k, item) :: rest else (k, v) :: Cache.assign rest key item

/-- The keys of a cache, in iteration order. -/
def Cache.keys (c : Cache) : List String := c.map Prod.fst

/-- What every cache built by `loadCache` satisfies: keys are unique (as in any
`unordered_map`), each record is stored under its own `originalFileName`, and, the cache file
holding no `ext` member, each baked file has an empty `ext`; a record has fewer than `2 ^ 32`
baked files. -/
def Cache.Loaded (c : Cache) : Prop :=
  c.keys.Nodup ∧
  ∀ kv ∈ c, kv.1 = kv.2.originalFileName ∧ kv.2.bakedFiles.length < 2 ^ 32 ∧
    ∀ b ∈ kv.2.bakedFiles, b.ext = ""

/-! ## JSON values (nlohmann::json) -/

/-- A JSON value.  Objects are association lists (key, member). -/
inductive Json where
  | null : Json
  | bool (b : Bool) : Json
  | number (x : Int) : Json
  | string (s : String) : Json
  | array (xs : List Json) : Json
  | object (members : List (String × Json)) : Json

/-- Source: `json::push_back(v)`: a null value becomes a one-element array, an array grows
by one; on any other value nlohmann throws (`none`). -/
def Json.push_back : Json → Json → Option Json
  | .null, v => some (.array [v])
  | .array xs, v => some (.array (xs ++ [v]))
  | _, _ => none

/-- Member lookup in an object's association list. -/
def Json.lookup : List (String × Json) → String → Option Json
  | [], _ => none
  | (k, v) :: rest, key => if k = key then some v else Json.lookup rest key

/-- Source: `j[key]` read on a non-const value: the member of an object (null when it is
missing), null on a null value, and a thrown `type_error` (`none`) on anything else. -/
def Json.get : Json → String → Option Json
  | .null, _ => some .null
  | .object members, key => some ((Json.lookup members key).getD .null)
  | _, _ => none

/-- Source: the range-for over a JSON value: nothing for null, the elements of an array, the
members of an object, and the value itself for a primitive. -/
def Json.elements : Json → List Json
  | .null => []
  | .array xs => xs
  | .object members => members.map Prod.snd
  | j => [j]

/-- Source: `json::size()`. -/
def Json.size : Json → Nat
  | .null => 0
  | .array xs => xs.length
  | .object members => members.length
  | _ => 1

/-- Source: `j[i]` with a number: the element of an array; nlohmann throws on a value that is
neither an array nor null, and an index past the end is undefined (`none` for both). -/
def Json.at : Json → Nat → Option Json
  | .array xs, i => xs[i]?
  | _, _ => none

/-- Source: the conversion of a JSON value to `std::string`; throws unless it is a string. -/
def Json.asString : Json → Option String
  | .string s => some s
  | _ => none

/-- Source: the conversion of a JSON value to `f64`; throws unless it is a number. -/
def Json.asF64 : Json → Option Int
  | .number x => some x
  | _ => none

/-- The strings of `cacheJsonStrings`. -/
structure CacheJsonStrings where
  cacheFiles : String
  originalFileName : String
  originalFileLastModified : String
  bakedFiles : String
  fileName : String
  filePath : String

/-- Source: the global `cacheJsonStrings`. -/
def cacheJsonStrings : CacheJsonStrings :=
  ⟨"cacheFiles", "originalFileName", "originalFileLastModified", "bakedFiles", "fileName",
    "filePath"⟩

/-! ## saveCache -/

/-- Source: the body of the inner loop of `saveCache`: the object with members `filePath` and
`fileName` (assigning members to a fresh null value makes it an object). -/
def bakedFileJson (bakedFile : BakedFile) : Json :=
  .object [(cacheJsonStrings.fileName, .string bakedFile.name),
           (cacheJsonStrings.filePath, .string bakedFile.path)]

/-- Repeated `push_back` of the values `vs` onto `acc`. -/
def pushAll : Json → List Json → Option Json
  | acc, [] => some acc
  | acc, v :: vs => (acc.push_back v).bind (fun acc1 => pushAll acc1 vs)

/-- Source: the body of either outer loop of `saveCache`: the JSON object of one record.  The
inner loop runs over the first `(u32)bakedFiles.size()` baked files. -/
def cacheItemJson (item : AssetBakeCachedItem) : Option Json :=
  (pushAll .null ((item.bakedFiles.take (u32 item.bakedFiles.length)).map bakedFileJson)).map
    (fun newCacheBakedFiles =>
      .object [(cacheJsonStrings.bakedFiles, newCacheBakedFiles),
               (cacheJsonStrings.originalFileLastModified, .number item.originalFileLastModified),
               (cacheJsonStrings.originalFileName, .string item.originalFileName)])

/-- Pushes the JSON object of each record onto the array `acc`. -/
def pushItems : Json → List AssetBakeCachedItem → Option Json
  | acc, [] => some acc
  | acc, item :: items =>
    (cacheItemJson item).bind (fun j =>
      (acc.push_back j).bind (fun acc1 => pushItems acc1 items))

/-- Source: `saveCache(oldCache, newBakedItems)`: the JSON document written to the cache file
(`none` when nlohmann throws): the records of the old cache in iteration order, then the new
records, in one array under `cacheFiles`. -/
def saveCache (oldCache : Cache) (newBakedItems : List AssetBakeCachedItem) : Option Json :=
  (pushItems .null (oldCache.map Prod.snd)).bind (fun bakedFiles =>
    (pushItems bakedFiles newBakedItems).map (fun bakedFiles1 =>
      .object [(cacheJsonStrings.cacheFiles, bakedFiles1)]))

/-! ## loadCache -/

/-- The cache file as `loadCache` finds it: absent (`readFile` fails), present with text
that `json::parse` rejects, or present with a JSON document. -/
inductive CacheFile where
  | absent : CacheFile
  | unparsable : CacheFile
  | document (j : Json) : CacheFile

/-- Source: the inner loop of `loadCache`, `remaining` iterations from index `i` on: reads
`filePath` and `fileName` of each baked file; `ext` is never read and stays empty. -/
def loadBakedFiles (bakedFilesJson : Json) : Nat → Nat → Option (List BakedFile)
  | 0, _ => some []
  | remaining + 1, i =>
    (bakedFilesJson.at i).bind (fun bakedFileJson =>
      ((bakedFileJson.get cacheJsonStrings.filePath).bind Json.asString).bind (fun path =>
        ((bakedFileJson.get cacheJsonStrings.fileName).bind Json.asString).bind (fun name =>
          (loadBakedFiles bakedFilesJson remaining (i + 1)).map (fun rest =>
            { path := path, ext := "", name := name } :: rest))))

/-- Source: the body of the outer loop of `loadCache`: one record read from one element. -/
def loadCacheItem (element : Json) : Option AssetBakeCachedItem :=
  ((element.get cacheJsonStrings.originalFileName).bind Json.asString).bind (fun name =>
    ((element.get cacheJsonStrings.originalFileLastModified).bind Json.asF64).bind (fun t =>
      (element.get cacheJsonStrings.bakedFiles).bind (fun bakedFilesJson =>
        (loadBakedFiles bakedFilesJson (u32 bakedFilesJson.size) 0).map (fun files =>
          { originalFileName := name, originalFileLastModified := t, bakedFiles := files }))))

/-- Source: the outer loop of `loadCache`: each record is assigned under its
`originalFileName`, so a later element replaces an earlier one of the same name. -/
def loadItems : List Json → Cache → Option Cache
  | [], cache => some cache
  | element :: rest, cache =>
    (loadCacheItem element).bind (fun cachedItem =>
      loadItems rest (cache.assign cachedItem.originalFileName cachedItem))

/-- Source: `loadCache(assetBakeCache)` on an empty map: the loaded cache, or `none` when
parsing or a conversion throws (nothing catches it: the run ends). -/
def loadCache : CacheFile → Option Cache
  | .absent => some []
  | .unparsable => none
  | .document cache =>
    (cache.get cacheJsonStrings.cacheFiles).bind (fun cachedFiles =>
      loadItems cachedFiles.elements [])

/-! ## Staleness -/

/-- Modelled from the spec: `epsilonComparison` (declared in `util.cpp` / `noop_math.h`, which
are not among the sources) compares two time stamps "with an epsilon tolerance": true exactly
when they differ by at most the tolerance.  On integer-valued time stamps a real tolerance and
its integer part accept the same pairs, so the tolerance is a natural number. -/
def epsilonComparison (epsilon : Nat) (a b : Int) : Bool :=
  decide (Int.natAbs (a - b) ≤ epsilon)

/-- Source: `fileUpToDate(cache, file)`.  `lastModifiedTimeStamp` is the file system's answer
for each path. -/
def fileUpToDate (epsilon : Nat) (lastModifiedTimeStamp : String → Int) (cache : Cache)
    (file : String) : Bool :=
  match cache.find file with
  | none => false
  | some cachedItem =>
    epsilonComparison epsilon (lastModifiedTimeStamp file) cachedItem.originalFileLastModified

/-! ## writeOutputData -/

/-- The four listing files written by `writeOutputData`, as lists of lines. -/
structure OutputData where
  baked_textures : List String
  baked_meshes : List String
  baked_materials : List String
  baked_prefabs : List String
  deriving DecidableEq, Repr

/-- Source: the lambda `write` of `writeOutputData`: the lines it appends to
`baked_textures.incl` (one line when `fileExt` is the baked texture extension, else none). -/
def write (bakedPath originalFileName fileExt : String) : List String :=
  let originalFileName1 := replace originalFileName ['.', '-'] 2 '_'
  let bakedPath1 := replaceBackSlashes bakedPath
  if fileExt = bakedExtensions.texture then
    ["BakedTexture(" ++ originalFileName1 ++ "," ++ String.singleton dquote ++ bakedPath1 ++
      String.singleton dquote ++ ")" ++ String.singleton newline]
  else []

/-- Source: the body of the inner loop of `writeOutputData` for one baked file of a cached
record.  The file name is the baked file's name without its last `ext.size()` characters:
`std::string(name.begin(), name.end() - ext.size())`, which is undefined when `ext` is longer
than `name` (the end iterator would lie before `begin()`). -/
def writeBakedFile (bakedFile : BakedFile) : Outcome (List String) :=
  if bakedFile.name.data.length < bakedFile.ext.data.length then .undefined
  else
    .returned (write bakedFile.path
      (String.mk (bakedFile.name.data.take
        (bakedFile.name.data.length - bakedFile.ext.data.length)))
      bakedFile.ext)

/-- Source: the loop of `writeOutputData` over the first `(u32)bakedFiles.size()` baked files
of one cached record. -/
def writeCachedItem (cachedItem : AssetBakeCachedItem) : Outcome (List String) :=
  (Outcome.sequence
    ((cachedItem.bakedFiles.take (u32 cachedItem.bakedFiles.length)).map writeBakedFile)).bind
    (fun lines => .returned lines.flatten)

/-- Source: `writeOutputData(oldCache, converterState)`: first one `write` per path of
`bakedFilePaths`, then one per baked file of every record of the old cache.  Only the texture
listing ever receives lines. -/
def writeOutputData (oldCache : Cache) (bakedFilePaths : List String) : Outcome OutputData :=
  (Outcome.sequence (oldCache.map (fun kv => writeCachedItem kv.2))).bind (fun cachedLines =>
    .returned
      { baked_textures :=
          (bakedFilePaths.map (fun path =>
            write path (replace_extension (filename path) "") (extension path))).flatten ++
          cachedLines.flatten
        baked_meshes := []
        baked_materials := []
        baked_prefabs := [] })

/-! ## External libraries -/

/-- A decoded image as `stbi_load` reports it: width, height, the channel count of the file,
and the pixel bytes. -/
structure Image where
  width : Nat
  height : Nat
  channels : Nat
  pixels : List Nat
  deriving DecidableEq, Repr

/-- The contract of a successful `stbi_load(path, w, h, c, req)`: positive dimensions, and
`w * h * n` pixel bytes that fit an `int`, where `n` is `req`, or the channel count of the
file when `req` is 0. -/
def Image.Decoded (img : Image) (req : Nat) : Prop :=
  0 < img.width ∧ 0 < img.height ∧ 0 < img.channels ∧
  img.pixels.length = img.width * img.height * (if req = 0 then img.channels else req) ∧
  img.width * img.height * (if req = 0 then img.channels else req) < 2 ^ 31

/-- Source: the `CMP_FORMAT` values the program names. -/
inductive CMP_FORMAT where
  | Unknown
  | RGB_888
  | RGBA_8888
  | ETC2_RGB
  | ETC2_RGBA
  deriving DecidableEq, Repr

/-- Source: the fields of `CMP_Texture` the program sets (`dwSize` and `pMipSet` apart). -/
structure CMP_Texture where
  dwWidth : Nat
  dwHeight : Nat
  dwPitch : Nat
  format : CMP_FORMAT
  nBlockHeight : Nat
  nBlockWidth : Nat
  nBlockDepth : Nat
  dwDataSize : Nat
  pData : List Nat
  deriving DecidableEq, Repr

/-- What a call of `CMP_ConvertTexture` does: it throws (`status = none`) or returns a status
(`some 0` is `CMP_OK`), and leaves `data` in the destination buffer. -/
structure CompressResult where
  status : Option Nat
  data : List Nat
  deriving DecidableEq, Repr

/-- Source: `CMP_OK`. -/
def CMP_OK : Nat := 0

/-- Source: the `TextureFormat` tags the program names. -/
inductive TextureFormat where
  | R8
  | ETC2_RGB
  | ETC2_RGBA
  deriving DecidableEq, Repr

/-- Source: the fields of `TextureInfo` that `convertTexture` sets. -/
structure TextureInfo where
  size : Nat
  originalFileName : String
  width : Nat
  height : Nat
  format : TextureFormat
  deriving DecidableEq, Repr

/-- Source: the fields of `CubeMapInfo` that `convertCubeMapTexture` sets. -/
structure CubeMapInfo where
  format : TextureFormat
  faceWidth : Nat
  faceHeight : Nat
  originalFolder : String
  faceSize : Nat
  deriving DecidableEq, Repr

/-- An `AssetFile` as the packer receives it: `packTexture(&texInfo, pixels)` or
`packCubeMap(&info, data)`; the packer itself is an external library. -/
inductive AssetFile where
  | texture (info : TextureInfo) (pixelData : List Nat)
  | cubeMap (info : CubeMapInfo) (data : List Nat)
  deriving DecidableEq, Repr

/-- An entry of a directory, as `directory_iterator` yields it. -/
structure DirEntry where
  path : String
  is_directory : Bool
  is_regular_file : Bool
  deriving DecidableEq, Repr

/-- The external calls of the two texture converters.  `assertsEnabled` tells whether the
program was compiled with `assert` active (no `NDEBUG`). -/
structure World where
  assertsEnabled : Bool
  stbi_load : String → Nat → Option Image
  directory_iterator : String → Option (List DirEntry)
  CMP_CalculateBufferSize : CMP_Texture → Nat
  CMP_ConvertTexture : CMP_Texture → CMP_Texture → CompressResult

/-- What a converter did before it returned: its return value, the source textures it handed
to `CMP_ConvertTexture`, and the files it wrote with `saveAssetFile`. -/
structure Converted where
  result : Bool
  compressed : List CMP_Texture
  saved : List (String × AssetFile)
  deriving DecidableEq, Repr

/-- Source: `STBI_rgb`. -/
def STBI_rgb : Nat := 3

/-! ## convertTexture -/

/-- Source: `convertTexture(inputPath, outputFilename)`. -/
def convertTexture (world : World) (inputPath outputFilename : String) : Outcome Converted :=
  match world.stbi_load inputPath 0 with
  | none => .returned { result := false, compressed := [], saved := [] }
  | some img =>
    let texWidth := img.width
    let texHeight := img.height
    let texChannels := img.channels
    if world.assertsEnabled ∧ ¬ (texChannels = 3 ∨ texChannels = 1) then .aborted
    else
      let size := texWidth * texHeight * texChannels
      if texChannels = 1 then
        let texInfo : TextureInfo :=
          { size := size, originalFileName := inputPath, width := texWidth, height := texHeight,
            format := .R8 }
        .returned { result := true, compressed := [],
                    saved := [(outputFilename, .texture texInfo img.pixels)] }
      else if texChannels = 3 then
        let srcTexture : CMP_Texture :=
          { dwWidth := u32 texWidth, dwHeight := u32 texHeight,
            dwPitch := u32 (texWidth * texChannels), format := .RGB_888,
            nBlockHeight := 0, nBlockWidth := 0, nBlockDepth := 0,
            dwDataSize := u32 (texWidth * texHeight * texChannels), pData := img.pixels }
        let destTexture0 : CMP_Texture :=
          { dwWidth := srcTexture.dwWidth, dwHeight := srcTexture.dwHeight, dwPitch := 0,
            format := .ETC2_RGB, nBlockHeight := 4, nBlockWidth := 4, nBlockDepth := 1,
            dwDataSize := 0, pData := [] }
        let destTexture : CMP_Texture :=
          { destTexture0 with dwDataSize := world.CMP_CalculateBufferSize destTexture0 }
        -- the status, or the exception, is only printed
        let compression := world.CMP_ConvertTexture srcTexture destTexture
        let texInfo : TextureInfo :=
          { size := size, originalFileName := inputPath, width := texWidth, height := texHeight,
            format := .ETC2_RGB }
        .returned { result := true, compressed := [srcTexture],
                    saved := [(outputFilename, .texture texInfo compression.data)] }
      else
        .returned { result := true, compressed := [], saved := [] }

/-! ## convertCubeMapTexture -/

/-- The nearest binary32 value of a natural number (round to nearest, ties to even): the
value of `(float)n`. -/
def f32Round (n : Nat) : Nat :=
  if n < 2 ^ 24 then n
  else
    let e := Nat.log2 n - 23
    let q := n / 2 ^ e
    let r := n % 2 ^ e
    let half := 2 ^ (e - 1)
    if r < half then q * 2 ^ e
    else if half < r then (q + 1) * 2 ^ e
    else if q % 2 = 0 then q * 2 ^ e else (q + 1) * 2 ^ e

/-- Source: `(u32)(ceil(faceWidth / 4.f) * ceil(faceHeight / 4.f)) * 8`, in binary32: the
division by 4 and `ceil` are exact, the conversions to `float` and the product round. -/
def faceSizeOf (faceWidth faceHeight : Nat) : Nat :=
  u32 (u32 (f32Round (((f32Round faceWidth + 3) / 4) * ((f32Round faceHeight + 3) / 4))) * 8)

/-- Source: the first loop of `convertCubeMapTexture`: the extension of the first regular
file of the directory, empty when there is none. -/
def firstExtension : List DirEntry → String
  | [] => ""
  | e :: rest => if e.is_regular_file then extension e.path else firstExtension rest

/-- The six faces of a cube map, under the names of the source. -/
structure Faces where
  front : Image
  back : Image
  top : Image
  bottom : Image
  left : Image
  right : Image
  deriving DecidableEq, Repr

/-- Source: the six `stbi_load` calls of `convertCubeMapTexture` with the null check that
follows them: the faces, or `none` when one of them did not load. -/
def loadFaces (world : World) (inputDir : String) (ext : String) : Option Faces :=
  let face := fun (name : String) =>
    world.stbi_load (replace_extension (pathAppend inputDir name) ext) STBI_rgb
  match face "front", face "back", face "top", face "bottom", face "left", face "right" with
  | some f, some b, some t, some bo, some l, some r =>
    some { front := f, back := b, top := t, bottom := bo, left := l, right := r }
  | _, _, _, _, _, _ => none

/-- Source: the second `if` of `convertCubeMapTexture`: a face differs from the front face in
width, height or channel count. -/
def facesMismatch (fs : Faces) : Bool :=
  decide (fs.front.width ≠ fs.back.width ∨ fs.front.width ≠ fs.top.width ∨
    fs.front.width ≠ fs.bottom.width ∨ fs.front.width ≠ fs.left.width ∨
    fs.front.width ≠ fs.right.width ∨
    fs.front.height ≠ fs.back.height ∨ fs.front.height ≠ fs.top.height ∨
    fs.front.height ≠ fs.bottom.height ∨ fs.front.height ≠ fs.left.height ∨
    fs.front.height ≠ fs.right.height ∨
    fs.front.channels ≠ fs.back.channels ∨ fs.front.channels ≠ fs.top.channels ∨
    fs.front.channels ≠ fs.bottom.channels ∨ fs.front.channels ≠ fs.left.channels ∨
    fs.front.channels ≠ fs.right.channels)

/-- Source: the part of `convertCubeMapTexture` after the faces are loaded. -/
def convertFaces (world : World) (inputDir outputFilename : String) (fs : Faces) :
    Outcome Converted :=
  if facesMismatch fs then .returned { result := false, compressed := [], saved := [] }
  else if fs.front.width % 4 ≠ 0 ∨ fs.front.height % 4 ≠ 0 then
    .returned { result := false, compressed := [], saved := [] }
  else if world.assertsEnabled ∧ fs.top.channels ≠ 3 then .aborted
  else
    let facePixelsSize := u32 (fs.front.width * fs.front.height * fs.front.channels)
    -- `malloc(facePixelsSize * 6)` in `u32`, then six `memcpy` of `facePixelsSize` bytes
    if u32 (facePixelsSize * 6) < facePixelsSize * 6 ∨
        fs.front.pixels.length < facePixelsSize ∨ fs.back.pixels.length < facePixelsSize ∨
        fs.top.pixels.length < facePixelsSize ∨ fs.bottom.pixels.length < facePixelsSize ∨
        fs.right.pixels.length < facePixelsSize ∨ fs.left.pixels.length < facePixelsSize then
      .undefined
    else
      let cubeMapPixels_fbtbrl :=
        fs.front.pixels.take facePixelsSize ++ fs.back.pixels.take facePixelsSize ++
        fs.top.pixels.take facePixelsSize ++ fs.bottom.pixels.take facePixelsSize ++
        fs.right.pixels.take facePixelsSize ++ fs.left.pixels.take facePixelsSize
      let srcTexture : CMP_Texture :=
        { dwWidth := u32 fs.top.width, dwHeight := u32 (fs.top.height * 6),
          dwPitch := u32 (fs.top.width * fs.top.channels), format := .RGB_888,
          nBlockHeight := 0, nBlockWidth := 0, nBlockDepth := 0,
          dwDataSize :=
            u32 (fs.top.width * fs.top.height * fs.top.channels * fs.top.channels * 6),
          pData := cubeMapPixels_fbtbrl }
      let destTexture0 : CMP_Texture :=
        { dwWidth := srcTexture.dwWidth, dwHeight := srcTexture.dwHeight, dwPitch := 0,
          format := .ETC2_RGB, nBlockHeight := 4, nBlockWidth := 4, nBlockDepth := 1,
          dwDataSize := 0, pData := [] }
      let destTexture : CMP_Texture :=
        { destTexture0 with dwDataSize := world.CMP_CalculateBufferSize destTexture0 }
      -- the status, or the exception, is only printed
      let compression := world.CMP_ConvertTexture srcTexture destTexture
      let info : CubeMapInfo :=
        { format := .ETC2_RGB, faceWidth := u32 fs.top.width, faceHeight := u32 fs.top.height,
          originalFolder := inputDir,
          faceSize := faceSizeOf (u32 fs.top.width) (u32 fs.top.height) }
      .returned { result := true, compressed := [srcTexture],
                  saved := [(outputFilename, .cubeMap info compression.data)] }

/-- Source: `convertCubeMapTexture(inputDir, outputFilename)`.  Iterating a path that is not
a directory throws. -/
def convertCubeMapTexture (world : World) (inputDir outputFilename : String) :
    Outcome Converted :=
  match world.directory_iterator inputDir with
  | none => .aborted
  | some entries =>
    match loadFaces world inputDir (firstExtension entries) with
    | none => .returned { result := false, compressed := [], saved := [] }
    | some fs => convertFaces world inputDir outputFilename fs

/-! ## main -/

/-- A category directory of the assets directory as the file system holds it. -/
inductive DirNode where
  | absent
  | notDirectory
  | directory (entries : List DirEntry)
  deriving DecidableEq, Repr

/-- The part of the file system `main` reads: whether `argv[1]` is a directory, its three
category directories, and the answer of `lastModifiedTimeStamp` for each path. -/
structure FileSystem where
  assetsDirIsDirectory : Bool
  skyboxes : DirNode
  textures : DirNode
  models : DirNode
  lastModifiedTimeStamp : String → Int

/-- The three converters as `main` sees them: the outcome of a call and, when it returns,
its return value. -/
structure Converters where
  convertCubeMapTexture : String → String → Outcome Bool
  convertTexture : String → String → Outcome Bool
  convertModel : String → String → Outcome Bool

/-- The converters of `main`. -/
inductive ConverterKind where
  | cubeMap
  | texture
  | model
  deriving DecidableEq, Repr

/-- One call of a converter. -/
structure Invocation where
  kind : ConverterKind
  inputPath : String
  outputFilename : String
  deriving DecidableEq, Repr

/-- The state the three loops of `main` change: `converterState.bakedFilePaths`, and the
converter calls made so far. -/
structure BakeState where
  bakedFilePaths : List String
  invocations : List Invocation
  deriving DecidableEq, Repr

/-- Source: one of the three `for` loops of `main` over the entries of a category directory.
An entry that `fileUpToDate` accepts is skipped; else, when it is of the wanted kind
(`is_directory` for skyboxes, `is_regular_file` for textures and models), the converter runs
on it.  The skybox and texture loops push the entry onto `bakedFilePaths` when the converter
returns true (`remember = true`); the model loop drops the return value
(`remember = false`). -/
def bakeEntries (upToDate : String → Bool) (wanted : DirEntry → Bool)
    (exportPath : String → String) (kind : ConverterKind)
    (convert : String → String → Outcome Bool) (remember : Bool) :
    List DirEntry → BakeState → Outcome BakeState
  | [], st => .returned st
  | entry :: rest, st =>
    if upToDate entry.path then
      bakeEntries upToDate wanted exportPath kind convert remember rest st
    else if wanted entry then
      match convert entry.path (exportPath entry.path) with
      | .aborted => .aborted
      | .undefined => .undefined
      | .returned ok =>
        bakeEntries upToDate wanted exportPath kind convert remember rest
          { bakedFilePaths :=
              if remember && ok then st.bakedFilePaths ++ [entry.path] else st.bakedFilePaths
            invocations := st.invocations ++ [⟨kind, entry.path, exportPath entry.path⟩] }
    else bakeEntries upToDate wanted exportPath kind convert remember rest st

/-- Source: the loop "remember baked item" of `main`: one record per path among the first
`(u32)bakedFilePaths.size()`, with one baked file, all three read off the source path. -/
def newlyCachedItems (lastModifiedTimeStamp : String → Int) (bakedFilePaths : List String) :
    List AssetBakeCachedItem :=
  (bakedFilePaths.take (u32 bakedFilePaths.length)).map (fun recentlyBakedFile =>
    { originalFileName := recentlyBakedFile
      originalFileLastModified := lastModifiedTimeStamp recentlyBakedFile
      bakedFiles := [{ path := recentlyBakedFile, name := filename recentlyBakedFile,
                       ext := extension recentlyBakedFile }] })

/-- What a run of `main` leaves behind: the exit code, `bakedFilePaths`, the converter calls,
the listing files and the cache document written (absent when `main` returned early). -/
structure MainResult where
  exitCode : Int
  bakedFilePaths : List String
  invocations : List Invocation
  outputData : Option OutputData
  savedCache : Option Json

/-- The export path of an entry: `bakedAssetDir / category / filename.replace_extension(ext)`. -/
def exportPathOf (bakedAssetDir category ext : String) (entryPath : String) : String :=
  pathAppend (pathAppend bakedAssetDir category) (replace_extension (filename entryPath) ext)

/-- Source: the skybox part of `main`: `dirCountInDir` iterates the directory without a
check, so a missing directory throws. -/
def bakeSkyboxes (epsilon : Nat) (conv : Converters) (fs : FileSystem) (bakedAssetDir : String)
    (oldAssetBakeCache : Cache) (st : BakeState) : Outcome BakeState :=
  match fs.skyboxes with
  | .directory entries =>
    bakeEntries (fileUpToDate epsilon fs.lastModifiedTimeStamp oldAssetBakeCache)
      DirEntry.is_directory (exportPathOf bakedAssetDir "skyboxes" bakedExtensions.cubeMap)
      .cubeMap conv.convertCubeMapTexture true entries st
  | _ => .aborted

/-- Source: the texture part of `main`, behind `exists(asset_textures_dir)`. -/
def bakeTextures (epsilon : Nat) (conv : Converters) (fs : FileSystem) (bakedAssetDir : String)
    (oldAssetBakeCache : Cache) (st : BakeState) : Outcome BakeState :=
  match fs.textures with
  | .absent => .returned st
  | .notDirectory => .aborted
  | .directory entries =>
    bakeEntries (fileUpToDate epsilon fs.lastModifiedTimeStamp oldAssetBakeCache)
      DirEntry.is_regular_file (exportPathOf bakedAssetDir "textures" bakedExtensions.texture)
      .texture conv.convertTexture true entries st

/-- Source: the model part of `main`, behind `exists(asset_models_dir)`; the return value of
`convertModel` is dropped. -/
def bakeModels (epsilon : Nat) (conv : Converters) (fs : FileSystem) (bakedAssetDir : String)
    (oldAssetBakeCache : Cache) (st : BakeState) : Outcome BakeState :=
  match fs.models with
  | .absent => .returned st
  | .notDirectory => .aborted
  | .directory entries =>
    bakeEntries (fileUpToDate epsilon fs.lastModifiedTimeStamp oldAssetBakeCache)
      DirEntry.is_regular_file (exportPathOf bakedAssetDir "models" bakedExtensions.model)
      .model conv.convertModel false entries st

/-- Source: `main`, from `loadCache` on (three arguments given): `bakedAssetDir` is
`argv[2]`, `cacheFile` the cache file found in the working directory. -/
def main (epsilon : Nat) (conv : Converters) (fs : FileSystem) (bakedAssetDir : String)
    (cacheFile : CacheFile) : Outcome MainResult :=
  match loadCache cacheFile with
  | none => .aborted
  | some oldAssetBakeCache =>
    if !fs.assetsDirIsDirectory then
      .returned { exitCode := -1, bakedFilePaths := [], invocations := [],
                  outputData := none, savedCache := none }
    else
      ((bakeSkyboxes epsilon conv fs bakedAssetDir oldAssetBakeCache ⟨[], []⟩).bind
        (fun st1 => (bakeTextures epsilon conv fs bakedAssetDir oldAssetBakeCache st1).bind
          (fun st2 => bakeModels epsilon conv fs bakedAssetDir oldAssetBakeCache st2))).bind
        (fun st =>
          (writeOutputData oldAssetBakeCache st.bakedFilePaths).bind (fun outputData =>
            match saveCache oldAssetBakeCache
                (newlyCachedItems fs.lastModifiedTimeStamp st.bakedFilePaths) with
            | none => .aborted
            | some document =>
              .returned { exitCode := 0, bakedFilePaths := st.bakedFilePaths,
                          invocations := st.invocations,
                          outputData := some outputData,
                          savedCache := some document }))

/-- The converters of `main` over a world of external calls: the two texture converters of
this file, and a model converter given by its outcome on each call. -/
def convertersOf (world : World) (convertModel : String → String → Outcome Bool) :
    Converters :=
  { convertCubeMapTexture := fun i o =>
      (convertCubeMapTexture world i o).bind (fun c => .returned c.result)
    convertTexture := fun i o => (convertTexture world i o).bind (fun c => .returned c.result)
    convertModel := convertModel }

/-! ## Notions used in the statements -/

/-- A baked file as the cache file keeps it: the cache file has no `ext` member, so `ext`
comes back empty. -/
def BakedFile.persisted (b : BakedFile) : BakedFile := { b with ext := "" }

/-- A record as the cache file keeps it: name and time stamp, and of the baked files, the
first `(u32)bakedFiles.size()`, without their `ext`. -/
def AssetBakeCachedItem.persisted (item : AssetBakeCachedItem) : AssetBakeCachedItem :=
  { originalFileName := item.originalFileName
    originalFileLastModified := item.originalFileLastModified
    bakedFiles := (item.bakedFiles.take (u32 item.bakedFiles.length)).map BakedFile.persisted }

/-- The last record of a list that has the given `originalFileName`. -/
def lastRecord : List AssetBakeCachedItem → String → Option AssetBakeCachedItem
  | [], _ => none
  | item :: rest, name =>
    match lastRecord rest name with
    | some r => some r
    | none => if item.originalFileName = name then some item else none

/-- Assigns each record of a list, as the cache file keeps it, under its own name. -/
def Cache.assignAll (c : Cache) (items : List AssetBakeCachedItem) : Cache :=
  items.foldl (fun acc item => acc.assign item.originalFileName item.persisted) c

/-- The `originalFileName` of every record of the array under `cacheFiles` in a cache
document, in array order. -/
def persistedRecordNames (document : Json) : List String :=
  (((document.get cacheJsonStrings.cacheFiles).map Json.elements).getD []).filterMap
    (fun element => (element.get cacheJsonStrings.originalFileName).bind Json.asString)

/-- The JSON array `push_back` builds from a list of values: null when the list is empty. -/
def arrayOrNull : List Json → Json
  | [] => .null
  | v :: vs => .array (v :: vs)

/-- The JSON object `saveCache` writes for one record. -/
def itemJson (item : AssetBakeCachedItem) : Json :=
  .object [(cacheJsonStrings.bakedFiles,
              arrayOrNull ((item.bakedFiles.take (u32 item.bakedFiles.length)).map bakedFileJson)),
           (cacheJsonStrings.originalFileLastModified, .number item.originalFileLastModified),
           (cacheJsonStrings.originalFileName, .string item.originalFileName)]

/-- The converter of `main` of a given kind. -/
def Converters.ofKind (conv : Converters) : ConverterKind → String → String → Outcome Bool
  | .cubeMap => conv.convertCubeMapTexture
  | .texture => conv.convertTexture
  | .model => conv.convertModel

/-! ## Concrete inputs -/

/-- A texture source file. -/
def brickPath : String := "assets/textures/brick.png"

/-- The record `main` builds for `brickPath` after baking it at time stamp `t`. -/
def brickRecord (t : Int) : AssetBakeCachedItem :=
  { originalFileName := brickPath, originalFileLastModified := t,
    bakedFiles := [{ path := brickPath, ext := ".png", name := "brick.png" }] }

/-- A cache holding `brickRecord 100` under its own name. -/
def brickCache : Cache := [(brickPath, brickRecord 100)]

/-- The cache file a run writes after baking `brickPath` at time stamp 100. -/
def brickCacheFile : CacheFile :=
  match saveCache [] [brickRecord 100] with
  | some document => .document document
  | none => .absent

/-- An assets directory with an empty `skyboxes`, a `textures` holding `brickPath` alone, last
written at time stamp `t`, and no `models`. -/
def brickFileSystem (t : Int) : FileSystem :=
  { assetsDirIsDirectory := true
    skyboxes := .directory []
    textures := .directory [{ path := brickPath, is_directory := false, is_regular_file := true }]
    models := .absent
    lastModifiedTimeStamp := fun _ => t }

/-- Converters that return the same value on every call. -/
def constantConverters (ok : Bool) : Converters :=
  { convertCubeMapTexture := fun _ _ => .returned ok
    convertTexture := fun _ _ => .returned ok
    convertModel := fun _ _ => .returned false }

/-- The six faces in the order of the source's declarations. -/
def Faces.all (fs : Faces) : List Image :=
  [fs.front, fs.back, fs.top, fs.bottom, fs.left, fs.right]

/-- A face set that `convertCubeMapTexture` accepts: six faces decoded by
`stbi_load(.., STBI_rgb)`, equal in width, height and channel count, with width and height
divisible by 4 and three channels. -/
def Faces.Accepted (fs : Faces) : Prop :=
  (∀ face ∈ fs.all, face.Decoded STBI_rgb) ∧ facesMismatch fs = false ∧
  fs.front.width % 4 = 0 ∧ fs.front.height % 4 = 0 ∧ fs.front.channels = 3

/-- The six-face pixel buffer, `6 * facePixelsSize` bytes, has a size that a `u32` holds (the
size `convertCubeMapTexture` passes to `malloc` is a `u32`). -/
def Faces.Fits (fs : Faces) : Prop :=
  6 * (fs.front.width * fs.front.height * 3) < 2 ^ 32

/-- A decoded image of the given size and channel count, all bytes 0. -/
def blankImage (width height channels bytesPerPixel : Nat) : Image :=
  { width := width, height := height, channels := channels,
    pixels := List.replicate (width * height * bytesPerPixel) 0 }

/-- A skybox directory `assets/skyboxes/sky` of six RGB `png` faces, 8 by 8, except that the
top face has height `topHeight`; the compressor returns `status`. -/
def skyWorld (topHeight : Nat) (status : Option Nat) : World :=
  { assertsEnabled := true
    stbi_load := fun path _ =>
      if path = "assets/skyboxes/sky/top.png" then some (blankImage 8 topHeight 3 3)
      else some (blankImage 8 8 3 3)
    directory_iterator := fun _ =>
      some [{ path := "assets/skyboxes/sky/back.png", is_directory := false,
              is_regular_file := true }]
    CMP_CalculateBufferSize := fun d => ((d.dwWidth + 3) / 4) * ((d.dwHeight + 3) / 4) * 8
    CMP_ConvertTexture := fun _ dest =>
      { status := status, data := List.replicate dest.dwDataSize 0 } }

/-- The faces `skyWorld 8 status` decodes. -/
def skyFaces : Faces :=
  { front := blankImage 8 8 3 3, back := blankImage 8 8 3 3, top := blankImage 8 8 3 3,
    bottom := blankImage 8 8 3 3, left := blankImage 8 8 3 3, right := blankImage 8 8 3 3 }

/-- A world whose every image file decodes to a 4 by 4 image of the given channel count, and
whose compressor returns `status`. -/
def textureWorld (assertsEnabled : Bool) (channels : Nat) (status : Option Nat) : World :=
  { assertsEnabled := assertsEnabled
    stbi_load := fun _ _ => some (blankImage 4 4 channels channels)
    directory_iterator := fun _ => none
    CMP_CalculateBufferSize := fun d => ((d.dwWidth + 3) / 4) * ((d.dwHeight + 3) / 4) * 8
    CMP_ConvertTexture := fun _ dest =>
      { status := status, data := List.replicate dest.dwDataSize 0 } }

/-- Two runs of `main` in a row on the same sources, the second on the cache document the
first one saved: the results of both, when both return and the first saved a cache. -/
def runTwice (epsilon : Nat) (conv : Converters) (fs : FileSystem) (bakedAssetDir : String)
    (cacheFile : CacheFile) : Option (MainResult × MainResult) :=
  match main epsilon conv fs bakedAssetDir cacheFile with
  | .returned r1 =>
    match r1.savedCache with
    | some document =>
      match main epsilon conv fs bakedAssetDir (.document document) with
      | .returned r2 => some (r1, r2)
      | _ => none
    | none => none
  | _ => none

instance (img : Image) (req : Nat) : Decidable (img.Decoded req) := by
  unfold Image.Decoded
  infer_instance

instance (fs : Faces) : Decidable fs.Accepted := by
  unfold Faces.Accepted
  infer_instance

instance (fs : Faces) : Decidable fs.Fits := by
  unfold Faces.Fits
  infer_instance

/-- The skybox directory of `skyWorld`. -/
def skyDir : String := "assets/skyboxes/sky"

/-- The export path `main` gives the skybox of `skyWorld`. -/
def skyOut : String := "baked/skyboxes/sky.cbtx"

/-- The export path `main` gives `brickPath`. -/
def brickOut : String := "baked/textures/brick.tx"

/-! ## convertModel -/

instance : Monad Outcome where
  pure := Outcome.returned
  bind := Outcome.bind

/-- Source: `assert(condition)`: aborts the process when asserts are compiled in and the
condition fails; compiled out otherwise. -/
def assertThat (assertsEnabled : Bool) (condition : Bool) : Outcome Unit :=
  if assertsEnabled && !condition then .aborted else .returned ()

/-- Source: `vector::at`, `map::at`: a missing element throws, and nothing catches it. -/
def orThrow {α : Type} : Option α → Outcome α
  | none => .aborted
  | some a => .returned a

/-- Source: `vector::operator[]`, or a read through `vector::data()`: outside the vector the
behaviour is undefined. -/
def orUndefined {α : Type} : Option α → Outcome α
  | none => .undefined
  | some a => .returned a

/-- Conversion of an `int` to `u32`. -/
def u32OfInt (i : Int) : Nat := (i % 2 ^ 32).toNat

/-- Conversion of an `int` to `size_t` (64 bits). -/
def sizeOfInt (i : Int) : Nat := (i % 2 ^ 64).toNat

/-- A finite `f64` value, `mantissa * 2 ^ exponent`. -/
structure F64 where
  mantissa : Int
  exponent : Int
  deriving DecidableEq, Repr

/-- An `f32` value as the program computes it from doubles: the narrowing `(f32)x`, or the
narrowing `(f32)(a - b)` of a difference of doubles.  The arithmetic is not carried out. -/
inductive F32 where
  | narrow (x : F64)
  | narrowDiff (a b : F64)
  deriving DecidableEq, Repr

/-- Source (tinygltf): the fields of `Accessor` the program reads. -/
structure tinygltf.Accessor where
  bufferView : Int
  componentType : Int
  count : Nat
  type : Int
  minValues : List F64
  maxValues : List F64
  deriving DecidableEq, Repr

/-- Source (tinygltf): the fields of `BufferView` the program reads. -/
structure tinygltf.BufferView where
  buffer : Int
  byteOffset : Nat
  byteLength : Nat
  deriving DecidableEq, Repr

/-- Source (tinygltf): `Buffer`. -/
structure tinygltf.Buffer where
  data : List Nat
  deriving DecidableEq, Repr

/-- Source (tinygltf): the fields of `Primitive` the program reads; `attributes` is a
`std::map` from semantic to accessor index. -/
structure tinygltf.Primitive where
  attributes : List (String × Int)
  indices : Int
  material : Int
  deriving DecidableEq, Repr

/-- Source (tinygltf): `Mesh`. -/
structure tinygltf.Mesh where
  primitives : List tinygltf.Primitive
  deriving DecidableEq, Repr

/-- Source (tinygltf): `TextureInfo` and `NormalTextureInfo`, the reference of a material to
a texture. -/
structure tinygltf.TextureInfo where
  index : Int
  texCoord : Int
  deriving DecidableEq, Repr

/-- Source (tinygltf): the fields of `Material` the program reads
(`pbrMetallicRoughness.baseColorFactor` and `.baseColorTexture` among them). -/
structure tinygltf.Material where
  normalTexture : tinygltf.TextureInfo
  baseColorFactor : List F64
  baseColorTexture : tinygltf.TextureInfo
  deriving DecidableEq, Repr

/-- Source (tinygltf): `Texture`. -/
structure tinygltf.Texture where
  source : Int
  deriving DecidableEq, Repr

/-- Source (tinygltf): the fields of `Image` the program reads. -/
structure tinygltf.Image where
  image : List Nat
  width : Nat
  height : Nat
  component : Nat
  deriving DecidableEq, Repr

/-- Source (tinygltf): the fields of `Model` the program reads. -/
structure tinygltf.Model where
  accessors : List tinygltf.Accessor
  bufferViews : List tinygltf.BufferView
  buffers : List tinygltf.Buffer
  meshes : List tinygltf.Mesh
  materials : List tinygltf.Material
  textures : List tinygltf.Texture
  images : List tinygltf.Image
  deriving DecidableEq, Repr

/-- What `readFile` followed by `TinyGLTF::LoadBinaryFromMemory` yields for a path. -/
structure GltfLoad where
  ret : Bool
  err : String
  warn : String
  model : tinygltf.Model
  deriving DecidableEq, Repr

/-- Source (tinygltf): `GetNumComponentsInType`. -/
def tinygltf.GetNumComponentsInType (ty : Int) : Int :=
  if ty = 65 then 1 else if ty = 2 then 2 else if ty = 3 then 3 else if ty = 4 then 4
  else if ty = 34 then 4 else if ty = 35 then 9 else if ty = 36 then 16 else -1

/-- Source (tinygltf): `GetComponentSizeInBytes`. -/
def tinygltf.GetComponentSizeInBytes (componentType : Int) : Int :=
  if componentType = 5120 then 1 else if componentType = 5121 then 1
  else if componentType = 5122 then 2 else if componentType = 5123 then 2
  else if componentType = 5124 then 4 else if componentType = 5125 then 4
  else if componentType = 5126 then 4 else if componentType = 5130 then 8 else -1

/-- Source: the local struct `gltfAttributeMetadata` of `convertModel`. -/
structure gltfAttributeMetadata where
  accessorIndex : Nat
  numComponents : Nat
  bufferViewIndex : Nat
  bufferIndex : Nat
  bufferByteOffset : Nat
  bufferByteLength : Nat
  deriving DecidableEq, Repr

/-- Source: `gltfAttributeMetadata x = {0}`. -/
def gltfAttributeMetadata.zero : gltfAttributeMetadata := ⟨0, 0, 0, 0, 0, 0⟩

/-- Source: `attributes.find(key)`, `attributes.at(key)`. -/
def findAttribute : List (String × Int) → String → Option Int
  | [], _ => none
  | (k, v) :: rest, key => if k = key then some v else findAttribute rest key

/-- Source: the lambda `populateAttributeMetadata` of `convertModel`; `none` when one of its
`at` calls throws. -/
def populateAttributeMetadata (model : tinygltf.Model) (keyString : String)
    (gltfPrimitive : tinygltf.Primitive) : Option gltfAttributeMetadata :=
  (findAttribute gltfPrimitive.attributes keyString).bind (fun accessor =>
    let accessorIndex := u32OfInt accessor
    (model.accessors[accessorIndex]?).bind (fun gltfAccessor =>
      let bufferViewIndex := u32OfInt gltfAccessor.bufferView
      (model.bufferViews[bufferViewIndex]?).map (fun gltfBufferView =>
        { accessorIndex := accessorIndex
          numComponents := u32OfInt (tinygltf.GetNumComponentsInType gltfAccessor.type)
          bufferViewIndex := bufferViewIndex
          bufferIndex := u32OfInt gltfBufferView.buffer
          bufferByteOffset := gltfBufferView.byteOffset
          bufferByteLength := gltfBufferView.byteLength })))

/-- Source: the two blocks of `convertModel` for `NORMAL` and `TEXCOORD_0`: whether the
attribute is there and, when it is, its metadata, asserted to name the buffer of the position
attribute; zero metadata when it is not. -/
def optionalAttribute (world : World) (model : tinygltf.Model) (keyString : String)
    (gltfPrimitive : tinygltf.Primitive) (positionAttribute : gltfAttributeMetadata) :
    Outcome (Bool × gltfAttributeMetadata) :=
  match findAttribute gltfPrimitive.attributes keyString with
  | none => .returned (false, gltfAttributeMetadata.zero)
  | some _ => do
    let metadata ← orThrow (populateAttributeMetadata model keyString gltfPrimitive)
    assertThat world.assertsEnabled (positionAttribute.bufferIndex == metadata.bufferIndex)
    pure (true, metadata)

/-- A pointer into the data of a buffer of the model: the buffer's index and a byte offset. -/
structure DataPointer where
  buffer : Nat
  offset : Nat
  deriving DecidableEq, Repr

/-- Source: the fields of `ModelInfo` that `convertModel` sets; a texture format stays unset
(`none`) when the model has no such texture. -/
structure ModelInfo where
  originalFileName : String
  boundingBoxMin : List F32
  boundingBoxDiagonal : List F32
  indexCount : Nat
  indexTypeSize : Int
  positionAttributeSize : Nat
  normalAttributeSize : Nat
  uvAttributeSize : Nat
  indicesSize : Nat
  baseColor : List F32
  albedoTexWidth : Nat
  albedoTexHeight : Nat
  albedoTexSize : Nat
  albedoTexFormat : Option TextureFormat
  normalTexWidth : Nat
  normalTexHeight : Nat
  normalTexSize : Nat
  normalTexFormat : Option TextureFormat
  deriving DecidableEq, Repr

/-- The arguments of `packModel`: the info, the four data pointers, and the two compressed
textures (absent for a null pointer). -/
structure PackedModel where
  info : ModelInfo
  positionAttributeData : DataPointer
  normalAttributeData : DataPointer
  uvAttributeData : DataPointer
  indicesData : DataPointer
  compressedNormal : Option (List Nat)
  compressedAlbedo : Option (List Nat)
  deriving DecidableEq, Repr

/-- What `convertModel` did before it returned: its return value, the source textures it
handed to `CMP_ConvertTexture`, and the files it wrote with `saveAssetFile`. -/
structure ModelConverted where
  result : Bool
  compressed : List CMP_Texture
  saved : List (String × PackedModel)
  deriving DecidableEq, Repr

/-- The pointer `baseColor` of `convertModel`: null without a material; with one, it points
into the factor vector of `gltfMaterial`, a copy of the material that is local to the
material block and destroyed at its end, before the pointer is read. -/
inductive BaseColorPointer where
  | null
  | dangling
  deriving DecidableEq, Repr

/-- Source: `baseColor = baseColor == nullptr ? defaultBaseColor : baseColor` and the four
reads `baseColor[0]` to `baseColor[3]`: the default colour for a null pointer; the reads
through the pointer into the destroyed copy are undefined. -/
def readBaseColor : BaseColorPointer → Outcome (List F64)
  | .null => .returned [⟨0, 0⟩, ⟨0, 0⟩, ⟨0, 0⟩, ⟨0, 0⟩]
  | .dangling => .undefined

/-- Source: the material block of `convertModel`: the pointer `baseColor` it leaves behind
and the image indices of the normal and albedo textures (-1 when absent). -/
def readMaterial (world : World) (model : tinygltf.Model) (gltfMaterialIndex : Int) :
    Outcome (BaseColorPointer × Int × Int) :=
  if gltfMaterialIndex ≥ 0 then do
    let gltfMaterial ← orUndefined (model.materials[sizeOfInt gltfMaterialIndex]?)
    assertThat world.assertsEnabled
      (gltfMaterial.normalTexture.texCoord == 0 && gltfMaterial.baseColorTexture.texCoord == 0)
    let normalImageIndex ←
      if gltfMaterial.normalTexture.index ≥ 0 then
        (orUndefined (model.textures[sizeOfInt gltfMaterial.normalTexture.index]?)).bind
          (fun t => .returned t.source)
      else .returned (-1)
    let albedoImageIndex ←
      if gltfMaterial.baseColorTexture.index ≥ 0 then
        (orUndefined (model.textures[sizeOfInt gltfMaterial.baseColorTexture.index]?)).bind
          (fun t => .returned t.source)
      else .returned (-1)
    pure (.dangling, normalImageIndex, albedoImageIndex)
  else .returned (.null, -1, -1)

/-- Source: either compression block of `convertModel`: the source and destination textures
set up for an embedded image, and what `CMP_ConvertTexture` leaves in the destination; its
status, or exception, is only printed. -/
def compressEmbedded (world : World) (image : tinygltf.Image) (channels : Nat)
    (startFormat desiredFormat : CMP_FORMAT) : CMP_Texture × CMP_Texture × List Nat :=
  let srcTexture : CMP_Texture :=
    { dwWidth := u32 image.width, dwHeight := u32 image.height,
      dwPitch := u32 (image.width * channels), format := startFormat,
      nBlockHeight := 0, nBlockWidth := 0, nBlockDepth := 0,
      dwDataSize := u32 image.image.length, pData := image.image }
  let destTexture0 : CMP_Texture :=
    { dwWidth := srcTexture.dwWidth, dwHeight := srcTexture.dwHeight, dwPitch := 0,
      format := desiredFormat, nBlockHeight := 4, nBlockWidth := 4, nBlockDepth := 1,
      dwDataSize := 0, pData := [] }
  let destTexture : CMP_Texture :=
    { destTexture0 with dwDataSize := world.CMP_CalculateBufferSize destTexture0 }
  (srcTexture, destTexture, (world.CMP_ConvertTexture srcTexture destTexture).data)

/-- Source: the block `if(albedoImageIndex != -1)` of `convertModel`: the image and its
compression, or nothing. -/
def compressAlbedo (world : World) (model : tinygltf.Model) (albedoImageIndex : Int) :
    Outcome (Option (tinygltf.Image × CMP_Texture × CMP_Texture × List Nat)) :=
  if albedoImageIndex ≠ -1 then do
    let albedoImage ← orUndefined model.images[sizeOfInt albedoImageIndex]?
    assertThat world.assertsEnabled
      (albedoImage.component == 3 || albedoImage.component == 4)
    pure (some (albedoImage, compressEmbedded world albedoImage albedoImage.component
      (if albedoImage.component = 3 then .RGB_888 else .RGBA_8888)
      (if albedoImage.component = 3 then .ETC2_RGB else .ETC2_RGBA)))
  else pure none

/-- Source: the block `if(normalImageIndex != -1)` of `convertModel`: the image and its
compression, as three channels, or nothing. -/
def compressNormal (world : World) (model : tinygltf.Model) (normalImageIndex : Int) :
    Outcome (Option (tinygltf.Image × CMP_Texture × CMP_Texture × List Nat)) :=
  if normalImageIndex ≠ -1 then do
    let normalImage ← orUndefined model.images[sizeOfInt normalImageIndex]?
    pure (some (normalImage, compressEmbedded world normalImage 3 .RGB_888 .ETC2_RGB))
  else pure none

/-- Source: `convertModel` after the glTF container is parsed. -/
def convertLoadedModel (world : World) (inputPath outputFileName : String)
    (model : tinygltf.Model) : Outcome ModelConverted := do
  assertThat world.assertsEnabled (model.meshes.length != 0)
  let gltfMesh ← orUndefined model.meshes[0]?
  assertThat world.assertsEnabled (!gltfMesh.primitives.isEmpty)
  let gltfPrimitive ← orUndefined gltfMesh.primitives[0]?
  assertThat world.assertsEnabled (decide (gltfPrimitive.indices > -1))
  assertThat world.assertsEnabled (findAttribute gltfPrimitive.attributes "POSITION").isSome
  let positionAttribute ← orThrow (populateAttributeMetadata model "POSITION" gltfPrimitive)
  let positionAccessor ← orUndefined model.accessors[positionAttribute.accessorIndex]?
  -- three reads each through `minValues.data()` and `maxValues.data()`
  let min0 ← orUndefined positionAccessor.minValues[0]?
  let min1 ← orUndefined positionAccessor.minValues[1]?
  let min2 ← orUndefined positionAccessor.minValues[2]?
  let max0 ← orUndefined positionAccessor.maxValues[0]?
  let max1 ← orUndefined positionAccessor.maxValues[1]?
  let max2 ← orUndefined positionAccessor.maxValues[2]?
  let (_, normalAttribute) ←
    optionalAttribute world model "NORMAL" gltfPrimitive positionAttribute
  let (_, texture0Attribute) ←
    optionalAttribute world model "TEXCOORD_0" gltfPrimitive positionAttribute
  let vertexAttBufferIndex := positionAttribute.bufferIndex
  assertThat world.assertsEnabled (decide (model.buffers.length > vertexAttBufferIndex))
  let indicesAccessorIndex := u32OfInt gltfPrimitive.indices
  let indicesAccessor ← orThrow model.accessors[indicesAccessorIndex]?
  let indicesGLTFBufferView ← orThrow model.bufferViews[sizeOfInt indicesAccessor.bufferView]?
  let indicesGLTFBufferIndex := u32OfInt indicesGLTFBufferView.buffer
  let minOffset := min positionAttribute.bufferByteOffset
    (min texture0Attribute.bufferByteOffset normalAttribute.bufferByteOffset)
  -- `tinyGLTFModel.buffers[indicesGLTFBufferIndex].data.data()`
  let _ ← orUndefined model.buffers[indicesGLTFBufferIndex]?
  let vertexAttributeDataOffset : DataPointer := ⟨indicesGLTFBufferIndex, minOffset⟩
  let indicesDataOffset : DataPointer :=
    ⟨indicesGLTFBufferIndex, indicesGLTFBufferView.byteOffset⟩
  let sizeOfAttributeData := positionAttribute.bufferByteLength +
    normalAttribute.bufferByteLength + texture0Attribute.bufferByteLength
  assertThat world.assertsEnabled
    (match model.buffers[vertexAttBufferIndex]? with
      | some buffer => decide (buffer.data.length ≥ sizeOfAttributeData)
      | none => false)
  let positionAttributeData : DataPointer :=
    ⟨vertexAttributeDataOffset.buffer,
      vertexAttributeDataOffset.offset + positionAttribute.bufferByteOffset⟩
  let normalAttributeData : DataPointer :=
    ⟨vertexAttributeDataOffset.buffer,
      vertexAttributeDataOffset.offset + normalAttribute.bufferByteOffset⟩
  let uvAttributeData : DataPointer :=
    ⟨vertexAttributeDataOffset.buffer,
      vertexAttributeDataOffset.offset + texture0Attribute.bufferByteOffset⟩
  let (baseColorPointer, normalImageIndex, albedoImageIndex) ←
    readMaterial world model gltfPrimitive.material
  let baseColor ← readBaseColor baseColorPointer
  let albedo ← compressAlbedo world model albedoImageIndex
  let normal ← compressNormal world model normalImageIndex
  let modelInfo : ModelInfo :=
    { originalFileName := inputPath
      boundingBoxMin := [.narrow min0, .narrow min1, .narrow min2]
      boundingBoxDiagonal :=
        [.narrowDiff max0 min0, .narrowDiff max1 min1, .narrowDiff max2 min2]
      indexCount := u32 indicesAccessor.count
      indexTypeSize := tinygltf.GetComponentSizeInBytes indicesAccessor.componentType
      positionAttributeSize := positionAttribute.bufferByteLength
      normalAttributeSize := normalAttribute.bufferByteLength
      uvAttributeSize := texture0Attribute.bufferByteLength
      indicesSize := indicesGLTFBufferView.byteLength
      baseColor := baseColor.map F32.narrow
      albedoTexWidth := (albedo.map (fun a => a.1.width)).getD 0
      albedoTexHeight := (albedo.map (fun a => a.1.height)).getD 0
      albedoTexSize := (albedo.map (fun a => a.2.2.1.dwDataSize)).getD 0
      albedoTexFormat := albedo.map (fun a =>
        if a.2.2.1.format = .ETC2_RGB then .ETC2_RGB else .ETC2_RGBA)
      normalTexWidth := (normal.map (fun a => a.1.width)).getD 0
      normalTexHeight := (normal.map (fun a => a.1.height)).getD 0
      normalTexSize := (normal.map (fun a => a.2.2.1.dwDataSize)).getD 0
      normalTexFormat := normal.map (fun _ => .ETC2_RGB) }
  let modelAsset : PackedModel :=
    { info := modelInfo
      positionAttributeData := positionAttributeData
      normalAttributeData := normalAttributeData
      uvAttributeData := uvAttributeData
      indicesData := indicesDataOffset
      compressedNormal := normal.map (fun a => a.2.2.2)
      compressedAlbedo := albedo.map (fun a => a.2.2.2) }
  pure { result := false
         compressed := (albedo.map (fun a => a.2.1)).toList ++
           (normal.map (fun a => a.2.1)).toList
         saved := [(outputFileName, modelAsset)] }

/-- Source: `convertModel(inputPath, outputFileName)`.  `LoadBinaryFromMemory` stands for
`readFile` followed by the tinygltf loader. -/
def convertModel (world : World) (LoadBinaryFromMemory : String → GltfLoad)
    (inputPath outputFileName : String) : Outcome ModelConverted :=
  let loaded := LoadBinaryFromMemory inputPath
  if loaded.warn ≠ "" then .returned { result := false, compressed := [], saved := [] }
  else if loaded.err ≠ "" then .returned { result := false, compressed := [], saved := [] }
  else if !loaded.ret then .returned { result := false, compressed := [], saved := [] }
  else convertLoadedModel world inputPath outputFileName loaded.model


/-! ## Concrete inputs for the model converter and the later claims -/

/-- A loader that parses every file into the given model without error or warning. -/
def loaderOf (model : tinygltf.Model) : String → GltfLoad :=
  fun _ => { ret := true, err := "", warn := "", model := model }

/-- A model file. -/
def triPath : String := "assets/models/tri.glb"

/-- The export path `main` gives `triPath`. -/
def triOut : String := "baked/models/tri.modl"

/-- The accessor of a `VEC3` float attribute of three vertices over a buffer view, with
bounds. -/
def vec3Accessor (bufferView : Int) : tinygltf.Accessor :=
  { bufferView := bufferView, componentType := 5126, count := 3, type := 3,
    minValues := [⟨0, 0⟩, ⟨0, 0⟩, ⟨0, 0⟩], maxValues := [⟨1, 0⟩, ⟨1, 0⟩, ⟨0, 0⟩] }

/-- The accessor of a `VEC2` float attribute of three vertices over a buffer view. -/
def vec2Accessor (bufferView : Int) : tinygltf.Accessor :=
  { bufferView := bufferView, componentType := 5126, count := 3, type := 2,
    minValues := [], maxValues := [] }

/-- The accessor of three `unsigned short` indices over a buffer view. -/
def indexAccessor (bufferView : Int) : tinygltf.Accessor :=
  { bufferView := bufferView, componentType := 5123, count := 3, type := 65,
    minValues := [], maxValues := [] }

/-- One mesh with one primitive: a triangle with a position attribute (36 bytes at offset 0)
and indices (6 bytes at offset 36) in one buffer; no normal, no UV, no material. -/
def minimalModel : tinygltf.Model :=
  { accessors := [vec3Accessor 0, indexAccessor 1]
    bufferViews := [{ buffer := 0, byteOffset := 0, byteLength := 36 },
                    { buffer := 0, byteOffset := 36, byteLength := 6 }]
    buffers := [{ data := List.replicate 42 0 }]
    meshes := [{ primitives := [{ attributes := [("POSITION", 0)], indices := 1,
                                  material := -1 }] }]
    materials := [], textures := [], images := [] }

/-- A triangle with position, normal and UV attributes and indices, each over its own buffer
view; the four buffer views are given. -/
def triangleModel (position normal uv indices : tinygltf.BufferView)
    (buffers : List tinygltf.Buffer) : tinygltf.Model :=
  { accessors := [vec3Accessor 0, vec3Accessor 1, vec2Accessor 2, indexAccessor 3]
    bufferViews := [position, normal, uv, indices]
    buffers := buffers
    meshes := [{ primitives := [{ attributes := [("NORMAL", 1), ("POSITION", 0),
                                                 ("TEXCOORD_0", 2)],
                                  indices := 3, material := -1 }] }]
    materials := [], textures := [], images := [] }

/-- A triangle whose three attributes lie in one buffer of 300 bytes but apart from each
other: position at 0, normal at 100, UV at 200 (indices at 260). -/
def scatteredModel : tinygltf.Model :=
  triangleModel ⟨0, 0, 36⟩ ⟨0, 100, 36⟩ ⟨0, 200, 24⟩ ⟨0, 260, 6⟩
    [{ data := List.replicate 300 0 }]

/-- A triangle whose normal attribute lies in a second buffer. -/
def crossBufferModel : tinygltf.Model :=
  triangleModel ⟨0, 0, 36⟩ ⟨1, 0, 36⟩ ⟨0, 36, 24⟩ ⟨0, 60, 6⟩
    [{ data := List.replicate 96 0 }, { data := List.replicate 36 0 }]

/-- A triangle in one buffer of 104 bytes that starts with the indices (6 bytes and 2 of
padding): position at 8, normal at 44, UV at 80, side by side. -/
def indicesFirstModel : tinygltf.Model :=
  triangleModel ⟨0, 8, 36⟩ ⟨0, 44, 36⟩ ⟨0, 80, 24⟩ ⟨0, 0, 6⟩
    [{ data := List.replicate 104 0 }]

/-- A triangle whose attributes fill buffer 0 from offset 0 on, side by side, and whose
indices lie in buffer 1. -/
def indicesApartModel : tinygltf.Model :=
  triangleModel ⟨0, 0, 36⟩ ⟨0, 36, 36⟩ ⟨0, 72, 24⟩ ⟨1, 0, 6⟩
    [{ data := List.replicate 96 0 }, { data := List.replicate 6 0 }]

/-- An assets directory with an empty `skyboxes`, no `textures`, and a `models` holding
`triPath` alone. -/
def modelFileSystem : FileSystem :=
  { assetsDirIsDirectory := true
    skyboxes := .directory []
    textures := .absent
    models := .directory [{ path := triPath, is_directory := false, is_regular_file := true }]
    lastModifiedTimeStamp := fun _ => 100 }

/-- The converters of `main` over a world and a glTF loader. -/
def convertersWith (world : World) (LoadBinaryFromMemory : String → GltfLoad) : Converters :=
  convertersOf world (fun inputPath outputFileName =>
    (convertModel world LoadBinaryFromMemory inputPath outputFileName).bind
      (fun c => .returned c.result))

/-- An assets directory without `skyboxes`, with a `textures` holding `brickPath` alone and
an empty `models`. -/
def noSkyboxFileSystem : FileSystem :=
  { assetsDirIsDirectory := true
    skyboxes := .absent
    textures := .directory [{ path := brickPath, is_directory := false, is_regular_file := true }]
    models := .directory []
    lastModifiedTimeStamp := fun _ => 100 }

/-- An assets directory with an empty `skyboxes`, without `textures`, and with an empty
`models`. -/
def noTextureFileSystem : FileSystem :=
  { assetsDirIsDirectory := true
    skyboxes := .directory []
    textures := .absent
    models := .directory []
    lastModifiedTimeStamp := fun _ => 100 }

/-- A skybox directory `assets/skyboxes/sky` of six 8 by 8 `png` faces whose files have the
given channel count; `stbi_load(.., STBI_rgb)` hands out three bytes per pixel whatever the
file holds. -/
def channelWorld (assertsEnabled : Bool) (channels : Nat) : World :=
  { assertsEnabled := assertsEnabled
    stbi_load := fun _ _ => some (blankImage 8 8 channels 3)
    directory_iterator := fun _ =>
      some [{ path := "assets/skyboxes/sky/back.png", is_directory := false,
              is_regular_file := true }]
    CMP_CalculateBufferSize := fun d => ((d.dwWidth + 3) / 4) * ((d.dwHeight + 3) / 4) * 8
    CMP_ConvertTexture := fun _ dest =>
      { status := some 0, data := List.replicate dest.dwDataSize 0 } }

/-- What `convertModel` hands to the packer for `minimalModel` read from `triPath`. -/
def minimalPacked : PackedModel :=
  { info :=
      { originalFileName := triPath
        boundingBoxMin := [.narrow ⟨0, 0⟩, .narrow ⟨0, 0⟩, .narrow ⟨0, 0⟩]
        boundingBoxDiagonal :=
          [.narrowDiff ⟨1, 0⟩ ⟨0, 0⟩, .narrowDiff ⟨1, 0⟩ ⟨0, 0⟩, .narrowDiff ⟨0, 0⟩ ⟨0, 0⟩]
        indexCount := 3
        indexTypeSize := 2
        positionAttributeSize := 36
        normalAttributeSize := 0
        uvAttributeSize := 0
        indicesSize := 6
        baseColor := [.narrow ⟨0, 0⟩, .narrow ⟨0, 0⟩, .narrow ⟨0, 0⟩, .narrow ⟨0, 0⟩]
        albedoTexWidth := 0
        albedoTexHeight := 0
        albedoTexSize := 0
        albedoTexFormat := none
        normalTexWidth := 0
        normalTexHeight := 0
        normalTexSize := 0
        normalTexFormat := none }
    positionAttributeData := ⟨0, 0⟩
    normalAttributeData := ⟨0, 0⟩
    uvAttributeData := ⟨0, 0⟩
    indicesData := ⟨0, 36⟩
    compressedNormal := none
    compressedAlbedo := none }

/-- A skybox directory `assets/skyboxes/sky` of six RGB `png` faces of the given width and
height. -/
def largeWorld (width height : Nat) : World :=
  { assertsEnabled := true
    stbi_load := fun _ _ => some (blankImage width height 3 3)
    directory_iterator := fun _ =>
      some [{ path := "assets/skyboxes/sky/back.png", is_directory := false,
              is_regular_file := true }]
    CMP_CalculateBufferSize := fun d => ((d.dwWidth + 3) / 4) * ((d.dwHeight + 3) / 4) * 8
    CMP_ConvertTexture := fun _ dest =>
      { status := some 0, data := List.replicate dest.dwDataSize 0 } }

/-- The faces `largeWorld width height` decodes. -/
def largeFaces (width height : Nat) : Faces :=
  { front := blankImage width height 3 3, back := blankImage width height 3 3,
    top := blankImage width height 3 3, bottom := blankImage width height 3 3,
    left := blankImage width height 3 3, right := blankImage width height 3 3 }

/-- A decoded 4 by 4 RGB face whose 48 bytes all have the value `shade`. -/
def shadedFace (shade : Nat) : Image :=
  { width := 4, height := 4, channels := 3, pixels := List.replicate 48 shade }

/-- A skybox directory `assets/skyboxes/sky` of six 4 by 4 RGB `png` faces that differ in
their bytes: front 1, back 2, top 3, bottom 4, left 5, right 6. -/
def shadedWorld : World :=
  { assertsEnabled := true
    stbi_load := fun path _ =>
      if path = "assets/skyboxes/sky/front.png" then some (shadedFace 1)
      else if path = "assets/skyboxes/sky/back.png" then some (shadedFace 2)
      else if path = "assets/skyboxes/sky/top.png" then some (shadedFace 3)
      else if path = "assets/skyboxes/sky/bottom.png" then some (shadedFace 4)
      else if path = "assets/skyboxes/sky/left.png" then some (shadedFace 5)
      else if path = "assets/skyboxes/sky/right.png" then some (shadedFace 6)
      else none
    directory_iterator := fun _ =>
      some [{ path := "assets/skyboxes/sky/back.png", is_directory := false,
              is_regular_file := true }]
    CMP_CalculateBufferSize := fun d => ((d.dwWidth + 3) / 4) * ((d.dwHeight + 3) / 4) * 8
    CMP_ConvertTexture := fun _ dest =>
      { status := some 0, data := List.replicate dest.dwDataSize 0 } }

/-- The faces `shadedWorld` decodes. -/
def shadedFaces : Faces :=
  { front := shadedFace 1, back := shadedFace 2, top := shadedFace 3,
    bottom := shadedFace 4, left := shadedFace 5, right := shadedFace 6 }

set_option maxRecDepth 100000

/-! ## The cache as a map -/

theorem Cache.find_assign (c : Cache) (k k1 : String) (v : AssetBakeCachedItem) :
    (c.assign k v).find k1 = if k = k1 then some v else c.find k1 := by
  induction c with
  | nil => simp [Cache.assign, Cache.find]
  | cons kv rest ih =>
    obtain ⟨a, w⟩ := kv
    by_cases hak : a = k
    · subst hak
      by_cases h1 : a = k1 <;> simp [Cache.assign, Cache.find, h1]
    · by_cases h1 : a = k1
      · subst h1
        have : ¬ k = a := fun h => hak h.symm
        simp [Cache.assign, Cache.find, hak, this]
      · simp [Cache.assign, Cache.find, hak, h1, ih]

theorem Cache.keys_assign (c : Cache) (k : String) (v : AssetBakeCachedItem) :
    (c.assign k v).keys = if k ∈ c.keys then c.keys else c.keys ++ [k] := by
  induction c with
  | nil => simp [Cache.assign, Cache.keys]
  | cons kv rest ih =>
    obtain ⟨a, w⟩ := kv
    by_cases hak : a = k
    · subst hak
      simp [Cache.assign, Cache.keys]
    · have hka : ¬ k = a := fun h => hak h.symm
      simp only [Cache.keys] at ih
      by_cases hmem : k ∈ rest.map Prod.fst
      · simp [Cache.assign, Cache.keys, hak, hka, ih, hmem]
      · simp [Cache.assign, Cache.keys, hak, hka, ih, hmem]

theorem Cache.nodup_assign (c : Cache) (k : String) (v : AssetBakeCachedItem)
    (h : c.keys.Nodup) : (c.assign k v).keys.Nodup := by
  rw [Cache.keys_assign]
  by_cases hmem : k ∈ c.keys
  · simpa [hmem] using h
  · simp only [hmem, if_false]
    rw [List.nodup_append]
    refine ⟨h, List.nodup_singleton k, ?_⟩
    intro a ha hb
    simp only [List.mem_singleton] at hb
    subst hb
    exact hmem ha

theorem Cache.mem_assign (c : Cache) (k : String) (v : AssetBakeCachedItem)
    (kv : String × AssetBakeCachedItem) (h : kv ∈ c.assign k v) : kv = (k, v) ∨ kv ∈ c := by
  induction c with
  | nil => simpa [Cache.assign] using h
  | cons hd rest ih =>
    obtain ⟨a, w⟩ := hd
    by_cases hak : a = k
    · subst hak
      simp only [Cache.assign, if_true, List.mem_cons] at h
      rcases h with h | h
      · exact Or.inl h
      · exact Or.inr (List.mem_cons_of_mem _ h)
    · simp only [Cache.assign, hak, if_false, List.mem_cons] at h
      rcases h with h | h
      · exact Or.inr (by simp [h])
      · rcases ih h with h1 | h1
        · exact Or.inl h1
        · exact Or.inr (List.mem_cons_of_mem _ h1)

theorem Cache.find_eq_none_of_not_mem (c : Cache) (k : String) (h : k ∉ c.keys) :
    c.find k = none := by
  induction c with
  | nil => rfl
  | cons hd rest ih =>
    obtain ⟨a, w⟩ := hd
    simp only [Cache.keys, List.map_cons, List.mem_cons, not_or] at h
    have hak : ¬ a = k := fun e => h.1 e.symm
    simp only [Cache.find, hak, if_false]
    exact ih h.2

theorem Cache.find_isSome_iff (c : Cache) (k : String) :
    (c.find k).isSome = true ↔ k ∈ c.keys := by
  induction c with
  | nil => simp [Cache.find, Cache.keys]
  | cons hd rest ih =>
    obtain ⟨a, w⟩ := hd
    by_cases hak : a = k
    · subst hak
      simp [Cache.find, Cache.keys]
    · have hka : ¬ k = a := fun e => hak e.symm
      simp only [Cache.keys] at ih
      simp [Cache.find, Cache.keys, hak, hka, ih]

theorem Cache.find_assignAll (items : List AssetBakeCachedItem) (c : Cache) (k : String) :
    (c.assignAll items).find k =
      match lastRecord items k with
      | some r => some r.persisted
      | none => c.find k := by
  induction items generalizing c with
  | nil => simp [Cache.assignAll, lastRecord]
  | cons item rest ih =>
    have hstep : c.assignAll (item :: rest) =
        (c.assign item.originalFileName item.persisted).assignAll rest := rfl
    rw [hstep, ih]
    cases hlast : lastRecord rest k with
    | some r => simp [lastRecord, hlast]
    | none =>
      by_cases hk : item.originalFileName = k
      · simp [lastRecord, hlast, hk, Cache.find_assign]
      · simp [lastRecord, hlast, hk, Cache.find_assign]

theorem Cache.nodup_assignAll (items : List AssetBakeCachedItem) (c : Cache)
    (h : c.keys.Nodup) : (c.assignAll items).keys.Nodup := by
  induction items generalizing c with
  | nil => simpa [Cache.assignAll] using h
  | cons item rest ih =>
    exact ih (c.assign item.originalFileName item.persisted) (Cache.nodup_assign c _ _ h)

theorem Cache.mem_keys_assignAll (items : List AssetBakeCachedItem) (c : Cache) (k : String) :
    k ∈ (c.assignAll items).keys ↔
      k ∈ c.keys ∨ k ∈ items.map AssetBakeCachedItem.originalFileName := by
  induction items generalizing c with
  | nil => simp [Cache.assignAll]
  | cons item rest ih =>
    have hstep : c.assignAll (item :: rest) =
        (c.assign item.originalFileName item.persisted).assignAll rest := rfl
    rw [hstep, ih, Cache.keys_assign]
    by_cases hmem : item.originalFileName ∈ c.keys
    · simp only [hmem, if_true, List.map_cons, List.mem_cons]
      constructor
      · rintro (h | h)
        · exact Or.inl h
        · exact Or.inr (Or.inr h)
      · rintro (h | h | h)
        · exact Or.inl h
        · exact Or.inl (h ▸ hmem)
        · exact Or.inr h
    · simp only [hmem, if_false, List.mem_append, List.mem_singleton, List.map_cons,
        List.mem_cons]
      tauto

theorem Cache.mem_assignAll (items : List AssetBakeCachedItem) (c : Cache)
    (P : String × AssetBakeCachedItem → Prop) (hc : ∀ kv ∈ c, P kv)
    (hitems : ∀ item ∈ items, P (item.originalFileName, item.persisted)) :
    ∀ kv ∈ c.assignAll items, P kv := by
  induction items generalizing c with
  | nil => simpa [Cache.assignAll] using hc
  | cons item rest ih =>
    apply ih (c.assign item.originalFileName item.persisted)
    · intro kv hkv
      rcases Cache.mem_assign c _ _ kv hkv with h | h
      · rw [h]
        exact hitems item (List.mem_cons_self _ _)
      · exact hc kv h
    · intro it hit
      exact hitems it (List.mem_cons_of_mem _ hit)

theorem lastRecord_append (xs ys : List AssetBakeCachedItem) (k : String) :
    lastRecord (xs ++ ys) k =
      match lastRecord ys k with
      | some r => some r
      | none => lastRecord xs k := by
  induction xs with
  | nil => cases h : lastRecord ys k <;> simp [lastRecord, h]
  | cons x rest ih =>
    have e1 : ∀ l, lastRecord (x :: l) k =
        match lastRecord l k with
        | some r => some r
        | none => if x.originalFileName = k then some x else none := fun l => rfl
    rw [List.cons_append, e1, e1, ih]
    cases h : lastRecord ys k <;> simp

theorem lastRecord_name (items : List AssetBakeCachedItem) (k : String)
    (r : AssetBakeCachedItem) (h : lastRecord items k = some r) :
    r ∈ items ∧ r.originalFileName = k := by
  induction items with
  | nil => simp [lastRecord] at h
  | cons item rest ih =>
    simp only [lastRecord] at h
    cases hrest : lastRecord rest k with
    | some r1 =>
      rw [hrest] at h
      simp only [Option.some.injEq] at h
      subst h
      exact ⟨List.mem_cons_of_mem _ (ih hrest).1, (ih hrest).2⟩
    | none =>
      rw [hrest] at h
      by_cases hk : item.originalFileName = k
      · simp only [hk, if_true, Option.some.injEq] at h
        subst h
        exact ⟨List.mem_cons_self _ _, hk⟩
      · simp [hk] at h

theorem lastRecord_eq_none_iff (items : List AssetBakeCachedItem) (k : String) :
    lastRecord items k = none ↔ k ∉ items.map AssetBakeCachedItem.originalFileName := by
  induction items with
  | nil => simp [lastRecord]
  | cons item rest ih =>
    simp only [lastRecord, List.map_cons, List.mem_cons, not_or]
    cases hrest : lastRecord rest k with
    | some r =>
      have hr := lastRecord_name rest k r hrest
      have hmem : k ∈ rest.map AssetBakeCachedItem.originalFileName :=
        List.mem_map.mpr ⟨r, hr.1, hr.2⟩
      constructor
      · intro h
        simp at h
      · intro h
        exact absurd hmem h.2
    | none =>
      have h2 := ih.mp hrest
      by_cases hk : item.originalFileName = k
      · simp [hk]
      · have hk2 : ¬ k = item.originalFileName := fun e => hk e.symm
        simp [hk, hk2, h2]

theorem persisted_eq_self (v : AssetBakeCachedItem) (hlen : v.bakedFiles.length < 2 ^ 32)
    (hext : ∀ b ∈ v.bakedFiles, b.ext = "") : v.persisted = v := by
  obtain ⟨n, t, files⟩ := v
  simp only [AssetBakeCachedItem.persisted, u32, AssetBakeCachedItem.mk.injEq, true_and]
  simp only at hlen hext
  rw [Nat.mod_eq_of_lt hlen, List.take_length]
  have : ∀ l : List BakedFile, (∀ b ∈ l, b.ext = "") → l.map BakedFile.persisted = l := by
    intro l hl
    induction l with
    | nil => rfl
    | cons b rest ih =>
      have hb := hl b (List.mem_cons_self _ _)
      obtain ⟨bp, be, bn⟩ := b
      simp only at hb
      subst hb
      simp only [List.map_cons, BakedFile.persisted, List.cons.injEq, true_and]
      exact ih (fun b1 h1 => hl b1 (List.mem_cons_of_mem _ h1))
  exact this files hext

theorem lastRecord_of_loaded (old : Cache) (h : old.Loaded) (k : String) :
    lastRecord (old.map Prod.snd) k = old.find k := by
  induction old with
  | nil => rfl
  | cons hd rest ih =>
    obtain ⟨a, w⟩ := hd
    obtain ⟨hnd, hall⟩ := h
    simp only [Cache.keys, List.map_cons, List.nodup_cons] at hnd
    have hrest : Cache.Loaded rest :=
      ⟨hnd.2, fun kv hkv => hall kv (List.mem_cons_of_mem _ hkv)⟩
    have hname : a = w.originalFileName := (hall (a, w) (List.mem_cons_self _ _)).1
    simp only [List.map_cons, lastRecord, ih hrest, Cache.find]
    by_cases hak : a = k
    · subst hak
      rw [Cache.find_eq_none_of_not_mem rest a hnd.1]
      simp [← hname]
    · have hwk : ¬ w.originalFileName = k := by rw [← hname]; exact hak
      cases hf : Cache.find rest k <;> simp [hak, hwk]

theorem Cache.mem_of_find (c : Cache) (k : String) (v : AssetBakeCachedItem)
    (h : c.find k = some v) : (k, v) ∈ c := by
  induction c with
  | nil => simp [Cache.find] at h
  | cons hd rest ih =>
    obtain ⟨a, w⟩ := hd
    by_cases hak : a = k
    · subst hak
      simp only [Cache.find, if_true, Option.some.injEq] at h
      subst h
      exact List.mem_cons_self _ _
    · simp only [Cache.find, hak, if_false] at h
      exact List.mem_cons_of_mem _ (ih h)

theorem Cache.find_assignAll_loaded (old : Cache) (h : old.Loaded)
    (items : List AssetBakeCachedItem) (k : String) :
    (Cache.assignAll [] (old.map Prod.snd ++ items)).find k =
      match lastRecord items k with
      | some r => some r.persisted
      | none => old.find k := by
  rw [Cache.find_assignAll, lastRecord_append]
  cases hl : lastRecord items k with
  | some r => simp
  | none =>
    simp only [lastRecord_of_loaded old h]
    cases hf : old.find k with
    | none => simp [Cache.find]
    | some v =>
      have hmem := Cache.mem_of_find old k v hf
      have hv := h.2 (k, v) hmem
      simp only [Option.some.injEq]
      exact persisted_eq_self v hv.2.1 hv.2.2

/-! ## The cache file read back -/

theorem pushAll_array (xs vs : List Json) : pushAll (.array xs) vs = some (.array (xs ++ vs)) := by
  induction vs generalizing xs with
  | nil => simp [pushAll]
  | cons v rest ih => simp [pushAll, Json.push_back, ih]

theorem pushAll_null (vs : List Json) : pushAll .null vs = some (arrayOrNull vs) := by
  cases vs with
  | nil => rfl
  | cons v rest => simp [pushAll, Json.push_back, pushAll_array, arrayOrNull]

theorem cacheItemJson_eq (item : AssetBakeCachedItem) :
    cacheItemJson item = some (itemJson item) := by
  simp [cacheItemJson, pushAll_null, itemJson]

theorem pushItems_array (xs : List Json) (items : List AssetBakeCachedItem) :
    pushItems (.array xs) items = some (.array (xs ++ items.map itemJson)) := by
  induction items generalizing xs with
  | nil => simp [pushItems]
  | cons item rest ih => simp [pushItems, cacheItemJson_eq, Json.push_back, ih]

theorem pushItems_null (items : List AssetBakeCachedItem) :
    pushItems .null items = some (arrayOrNull (items.map itemJson)) := by
  cases items with
  | nil => rfl
  | cons item rest =>
    simp [pushItems, cacheItemJson_eq, Json.push_back, pushItems_array, arrayOrNull]

theorem saveCache_eq (oldCache : Cache) (newBakedItems : List AssetBakeCachedItem) :
    saveCache oldCache newBakedItems =
      some (.object [(cacheJsonStrings.cacheFiles,
        arrayOrNull ((oldCache.map Prod.snd ++ newBakedItems).map itemJson))]) := by
  unfold saveCache
  rw [pushItems_null]
  cases hold : oldCache.map Prod.snd with
  | nil => simp [arrayOrNull, pushItems_null]
  | cons v rest => simp [arrayOrNull, pushItems_array]

theorem elements_arrayOrNull (vs : List Json) : (arrayOrNull vs).elements = vs := by
  cases vs <;> rfl

theorem size_arrayOrNull (vs : List Json) : (arrayOrNull vs).size = vs.length := by
  cases vs <;> rfl

theorem loadBakedFiles_array (files : List BakedFile) (before : List Json) :
    loadBakedFiles (.array (before ++ files.map bakedFileJson)) files.length before.length =
      some (files.map BakedFile.persisted) := by
  induction files generalizing before with
  | nil => simp [loadBakedFiles]
  | cons b rest ih =>
    have hat : (Json.array (before ++ (b :: rest).map bakedFileJson)).at before.length =
        some (bakedFileJson b) := by
      have h0 : (before ++ (b :: rest).map bakedFileJson)[before.length]? =
          some (bakedFileJson b) := by
        rw [List.getElem?_append_right (le_refl _)]
        simp
      simpa [Json.at] using h0
    have hih := ih (before ++ [bakedFileJson b])
    simp only [List.length_append, List.length_singleton, List.append_assoc,
      List.singleton_append] at hih
    simp only [List.length_cons, loadBakedFiles, hat, Option.some_bind]
    simp only [List.map_cons] at hih ⊢
    rw [hih]
    simp [bakedFileJson, Json.get, Json.lookup, Json.asString, cacheJsonStrings,
      BakedFile.persisted]

theorem loadBakedFiles_arrayOrNull (files : List BakedFile) :
    loadBakedFiles (arrayOrNull (files.map bakedFileJson)) files.length 0 =
      some (files.map BakedFile.persisted) := by
  cases files with
  | nil => rfl
  | cons b rest =>
    have h := loadBakedFiles_array (b :: rest) []
    simpa [arrayOrNull] using h

theorem loadCacheItem_itemJson (item : AssetBakeCachedItem) :
    loadCacheItem (itemJson item) = some item.persisted := by
  have hb : (item.bakedFiles.take (u32 item.bakedFiles.length)).length < 2 ^ 32 := by
    have h1 : (item.bakedFiles.take (u32 item.bakedFiles.length)).length ≤
        u32 item.bakedFiles.length := by
      simp [List.length_take]
    have h2 : u32 item.bakedFiles.length < 2 ^ 32 := Nat.mod_lt _ (by norm_num)
    omega
  unfold itemJson AssetBakeCachedItem.persisted
  generalize item.bakedFiles.take (u32 item.bakedFiles.length) = l at hb ⊢
  have hsize : u32 (arrayOrNull (l.map bakedFileJson)).size = l.length := by
    rw [size_arrayOrNull, List.length_map]
    exact Nat.mod_eq_of_lt hb
  have hget : (Json.object
      [(cacheJsonStrings.bakedFiles, arrayOrNull (l.map bakedFileJson)),
       (cacheJsonStrings.originalFileLastModified, .number item.originalFileLastModified),
       (cacheJsonStrings.originalFileName, .string item.originalFileName)]).get
        cacheJsonStrings.bakedFiles = some (arrayOrNull (l.map bakedFileJson)) := by
    simp [Json.get, Json.lookup]
  have hname : (Json.object
      [(cacheJsonStrings.bakedFiles, arrayOrNull (l.map bakedFileJson)),
       (cacheJsonStrings.originalFileLastModified, .number item.originalFileLastModified),
       (cacheJsonStrings.originalFileName, .string item.originalFileName)]).get
        cacheJsonStrings.originalFileName = some (.string item.originalFileName) := by
    simp [Json.get, Json.lookup, cacheJsonStrings]
  have htime : (Json.object
      [(cacheJsonStrings.bakedFiles, arrayOrNull (l.map bakedFileJson)),
       (cacheJsonStrings.originalFileLastModified, .number item.originalFileLastModified),
       (cacheJsonStrings.originalFileName, .string item.originalFileName)]).get
        cacheJsonStrings.originalFileLastModified =
          some (.number item.originalFileLastModified) := by
    simp [Json.get, Json.lookup, cacheJsonStrings]
  unfold loadCacheItem
  rw [hname, htime, hget]
  simp only [Option.some_bind, Json.asString, Json.asF64]
  rw [hsize, loadBakedFiles_arrayOrNull]
  rfl

theorem loadItems_itemJson (items : List AssetBakeCachedItem) (c : Cache) :
    loadItems (items.map itemJson) c = some (c.assignAll items) := by
  induction items generalizing c with
  | nil => rfl
  | cons item rest ih =>
    simp only [List.map_cons, loadItems, loadCacheItem_itemJson, Option.some_bind, ih]
    rfl

theorem loadCache_saveCache (oldCache : Cache) (newBakedItems : List AssetBakeCachedItem) :
    (saveCache oldCache newBakedItems).bind (fun document => loadCache (.document document)) =
      some (Cache.assignAll [] (oldCache.map Prod.snd ++ newBakedItems)) := by
  rw [saveCache_eq]
  simp only [Option.some_bind, loadCache, Json.get, Json.lookup, if_true, Option.getD_some,
    elements_arrayOrNull]
  exact loadItems_itemJson _ _

theorem loadBakedFiles_spec (j : Json) (n i : Nat) (l : List BakedFile)
    (h : loadBakedFiles j n i = some l) : l.length = n ∧ ∀ b ∈ l, b.ext = "" := by
  induction n generalizing i l with
  | zero =>
    simp only [loadBakedFiles, Option.some.injEq] at h
    subst h
    simp
  | succ n ih =>
    simp only [loadBakedFiles, Option.bind_eq_some, Option.map_eq_some'] at h
    obtain ⟨_, _, path, _, name, _, rest, hrest, hl⟩ := h
    subst hl
    have := ih (i + 1) rest hrest
    refine ⟨by simp [this.1], ?_⟩
    intro b hb
    simp only [List.mem_cons] at hb
    rcases hb with hb | hb
    · subst hb; rfl
    · exact this.2 b hb

theorem loadCacheItem_spec (element : Json) (item : AssetBakeCachedItem)
    (h : loadCacheItem element = some item) :
    item.bakedFiles.length < 2 ^ 32 ∧ ∀ b ∈ item.bakedFiles, b.ext = "" := by
  simp only [loadCacheItem, Option.bind_eq_some, Option.map_eq_some'] at h
  obtain ⟨name, _, t, _, bakedFilesJson, _, files, hfiles, hitem⟩ := h
  subst hitem
  have := loadBakedFiles_spec _ _ _ _ hfiles
  refine ⟨?_, this.2⟩
  simp only [this.1, u32]
  exact Nat.mod_lt _ (by norm_num)

theorem Cache.loaded_assign (c : Cache) (v : AssetBakeCachedItem) (hc : c.Loaded)
    (hlen : v.bakedFiles.length < 2 ^ 32) (hext : ∀ b ∈ v.bakedFiles, b.ext = "") :
    (c.assign v.originalFileName v).Loaded := by
  refine ⟨Cache.nodup_assign c _ _ hc.1, ?_⟩
  intro kv hkv
  rcases Cache.mem_assign c _ _ kv hkv with h | h
  · subst h
    exact ⟨rfl, hlen, hext⟩
  · exact hc.2 kv h

theorem loadItems_loaded (elements : List Json) (c c1 : Cache) (hc : c.Loaded)
    (h : loadItems elements c = some c1) : c1.Loaded := by
  induction elements generalizing c with
  | nil =>
    simp only [loadItems, Option.some.injEq] at h
    subst h
    exact hc
  | cons element rest ih =>
    simp only [loadItems, Option.bind_eq_some] at h
    obtain ⟨item, hitem, hrest⟩ := h
    have hs := loadCacheItem_spec element item hitem
    exact ih _ (Cache.loaded_assign c item hc hs.1 hs.2) hrest

theorem loadCache_loaded (cacheFile : CacheFile) (c : Cache)
    (h : loadCache cacheFile = some c) : c.Loaded := by
  have hnil : Cache.Loaded [] := ⟨List.nodup_nil, fun kv hkv => absurd hkv (List.not_mem_nil _)⟩
  cases cacheFile with
  | absent =>
    simp only [loadCache, Option.some.injEq] at h
    subst h
    exact hnil
  | unparsable => simp [loadCache] at h
  | document j =>
    simp only [loadCache, Option.bind_eq_some] at h
    obtain ⟨cachedFiles, _, hitems⟩ := h
    exact loadItems_loaded _ _ _ hnil hitems

theorem keys_of_loaded (old : Cache) (h : old.Loaded) :
    (old.map Prod.snd).map AssetBakeCachedItem.originalFileName = old.keys := by
  simp only [Cache.keys, List.map_map]
  apply List.map_congr_left
  intro kv hkv
  exact ((h.2 kv hkv).1).symm

/-! ## Staleness check (C2) -/

/-- C2: `fileUpToDate(cache, file)` is true exactly when the cache holds a record under the
file's path string and the file's current time stamp is within the tolerance of the stored
one; it is false for a path with no record, and true when the two time stamps are equal. -/
theorem fileUpToDate_iff (epsilon : Nat) (lastModifiedTimeStamp : String → Int) (cache : Cache)
    (file : String) :
    (fileUpToDate epsilon lastModifiedTimeStamp cache file = true ↔
      ∃ cachedItem, cache.find file = some cachedItem ∧
        Int.natAbs (lastModifiedTimeStamp file - cachedItem.originalFileLastModified) ≤ epsilon) ∧
    (cache.find file = none → fileUpToDate epsilon lastModifiedTimeStamp cache file = false) ∧
    (∀ cachedItem, cache.find file = some cachedItem →
      lastModifiedTimeStamp file = cachedItem.originalFileLastModified →
      fileUpToDate epsilon lastModifiedTimeStamp cache file = true) := by
  refine ⟨?_, ?_, ?_⟩
  · cases hfind : cache.find file with
    | none => simp [fileUpToDate, hfind]
    | some cachedItem => simp [fileUpToDate, hfind, epsilonComparison]
  · intro hfind
    simp [fileUpToDate, hfind]
  · intro cachedItem hfind heq
    simp [fileUpToDate, hfind, epsilonComparison, heq]

/-- C2 at a concrete cache: with tolerance 0, `brickPath` last written at 100 is up to date
against `brickCache`, and a path without a record is not. -/
theorem fileUpToDate_iff_witness :
    fileUpToDate 0 (fun _ => 100) brickCache brickPath = true ∧
    fileUpToDate 0 (fun _ => 100) brickCache "assets/textures/other.png" = false :=
  ⟨(fileUpToDate_iff 0 (fun _ => 100) brickCache brickPath).2.2 (brickRecord 100)
      (by decide) (by decide),
   (fileUpToDate_iff 0 (fun _ => 100) brickCache "assets/textures/other.png").2.1 (by decide)⟩

/-! ## Cache merge round trip (C3) -/

/-- C3, as stated, fails: an old cache whose record carries a baked file with a non-empty
`ext` (the record `main` builds for a newly baked file) does not come back unchanged from
`saveCache` followed by `loadCache`, although no new record has its key. -/
theorem cache_round_trip_drops_ext :
    ((saveCache brickCache []).bind (fun document => loadCache (.document document))).bind
        (fun merged => merged.find brickPath) ≠ brickCache.find brickPath := by
  rw [loadCache_saveCache]
  decide

/-- C3 (amended): for every old cache as `loadCache` builds it (unique keys, each record
under its own `originalFileName`, empty `ext`) and every list of new records with fewer than
`2 ^ 32` baked files each, `saveCache` writes a document and `loadCache` reads from it a
mapping whose keys are the old keys and the new records' names; a name among the new records
maps to the last new record of that name, with its time stamp and its baked files' path and
name (and an empty `ext`); any other key maps to what the old cache holds for it. -/
theorem cache_merge_round_trip (oldCache : Cache) (newBakedItems : List AssetBakeCachedItem)
    (hold : oldCache.Loaded)
    (hnew : ∀ item ∈ newBakedItems, item.bakedFiles.length < 2 ^ 32) :
    ∃ document merged, saveCache oldCache newBakedItems = some document ∧
      loadCache (.document document) = some merged ∧
      (∀ k, k ∈ merged.keys ↔
        k ∈ oldCache.keys ∨ k ∈ newBakedItems.map AssetBakeCachedItem.originalFileName) ∧
      (∀ k r, lastRecord newBakedItems k = some r →
        merged.find k = some
          { originalFileName := k, originalFileLastModified := r.originalFileLastModified,
            bakedFiles := r.bakedFiles.map BakedFile.persisted }) ∧
      (∀ k, k ∉ newBakedItems.map AssetBakeCachedItem.originalFileName →
        merged.find k = oldCache.find k) := by
  have hround := loadCache_saveCache oldCache newBakedItems
  rw [saveCache_eq] at hround ⊢
  simp only [Option.some_bind] at hround
  refine ⟨_, _, rfl, hround, ?_, ?_, ?_⟩
  · intro k
    rw [Cache.mem_keys_assignAll, List.map_append, List.mem_append, keys_of_loaded oldCache hold]
    simp [Cache.keys]
  · intro k r hr
    rw [Cache.find_assignAll_loaded oldCache hold, hr]
    have hmem := lastRecord_name newBakedItems k r hr
    have hlen := hnew r hmem.1
    simp only [AssetBakeCachedItem.persisted, u32, Nat.mod_eq_of_lt hlen, List.take_length,
      hmem.2]
  · intro k hk
    rw [Cache.find_assignAll_loaded oldCache hold,
      (lastRecord_eq_none_iff newBakedItems k).mpr hk]

/-- C3 (amended) at a concrete input: the cache file of an earlier run, read back, merged
with the record of a rebake of the same source at time stamp 200. -/
theorem cache_merge_round_trip_witness :
    ∃ document merged, saveCache [(brickPath, (brickRecord 100).persisted)] [brickRecord 200] =
        some document ∧
      loadCache (.document document) = some merged ∧
      (∀ k, k ∈ merged.keys ↔
        k ∈ Cache.keys [(brickPath, (brickRecord 100).persisted)] ∨
          k ∈ [brickRecord 200].map AssetBakeCachedItem.originalFileName) ∧
      (∀ k r, lastRecord [brickRecord 200] k = some r →
        merged.find k = some
          { originalFileName := k, originalFileLastModified := r.originalFileLastModified,
            bakedFiles := r.bakedFiles.map BakedFile.persisted }) ∧
      (∀ k, k ∉ [brickRecord 200].map AssetBakeCachedItem.originalFileName →
        merged.find k = Cache.find [(brickPath, (brickRecord 100).persisted)] k) :=
  cache_merge_round_trip [(brickPath, (brickRecord 100).persisted)] [brickRecord 200]
    ⟨by decide, by decide⟩ (by decide)

/-! ## One record per source (C4) -/

/-- C4, as stated, fails: when `main` rebakes a source that the loaded cache already holds
(here `brickPath`, cached at time stamp 100 and last written at 200), the array `saveCache`
writes holds two records with that `originalFileName`, the old one and the new one. -/
theorem rebake_persists_two_records :
    (match main 0 (constantConverters true) (brickFileSystem 200) "baked" brickCacheFile with
      | .returned r => r.savedCache.map persistedRecordNames
      | _ => none) = some [brickPath, brickPath] := by
  decide

/-- C4 (amended): for every old cache and every list of newly baked items, the mapping
`loadCache` reads from the document `saveCache` writes holds one record per
`originalFileName` (its keys are distinct and each record sits under its own name), and the
record of a rebaked source is the new record as a whole, as the cache file keeps it, with
nothing of the old one. -/
theorem loaded_cache_one_record_per_source (oldCache : Cache)
    (newBakedItems : List AssetBakeCachedItem) :
    ∃ document merged, saveCache oldCache newBakedItems = some document ∧
      loadCache (.document document) = some merged ∧
      merged.keys.Nodup ∧
      (∀ kv ∈ merged, kv.1 = kv.2.originalFileName) ∧
      (∀ k r, lastRecord newBakedItems k = some r → merged.find k = some r.persisted) := by
  have hround := loadCache_saveCache oldCache newBakedItems
  rw [saveCache_eq] at hround ⊢
  simp only [Option.some_bind] at hround
  refine ⟨_, _, rfl, hround, ?_, ?_, ?_⟩
  · exact Cache.nodup_assignAll _ _ List.nodup_nil
  · apply Cache.mem_assignAll
    · intro kv hkv
      exact absurd hkv (List.not_mem_nil _)
    · intro item _
      rfl
  · intro k r hr
    rw [Cache.find_assignAll, lastRecord_append, hr]

/-! ## The texture listing (C5) -/

theorem write_of_ne (bakedPath originalFileName fileExt : String)
    (h : fileExt ≠ bakedExtensions.texture) : write bakedPath originalFileName fileExt = [] := by
  simp [write, h]

theorem Outcome.sequence_returned {α β : Type} (l : List α) (f : α → Outcome β) (g : α → β)
    (h : ∀ x ∈ l, f x = .returned (g x)) :
    Outcome.sequence (l.map f) = .returned (l.map g) := by
  induction l with
  | nil => rfl
  | cons x rest ih =>
    simp only [List.map_cons, Outcome.sequence, h x (List.mem_cons_self _ _),
      ih (fun y hy => h y (List.mem_cons_of_mem _ hy)), Outcome.bind]

theorem writeCachedItem_loaded (item : AssetBakeCachedItem)
    (h : ∀ b ∈ item.bakedFiles, b.ext = "") : writeCachedItem item = .returned [] := by
  unfold writeCachedItem
  rw [Outcome.sequence_returned _ writeBakedFile (fun _ => [])]
  · simp [Outcome.bind]
  · intro b hb
    have hext := h b (List.mem_of_mem_take hb)
    have hlt : ¬ b.name.data.length < b.ext.data.length := by
      rw [hext]
      exact Nat.not_lt_zero _
    unfold writeBakedFile
    rw [if_neg hlt, hext]
    simp only [Outcome.returned.injEq]
    apply write_of_ne
    decide

/-- The listings `writeOutputData` writes over a cache that `loadCache` built: the lines of
the newly baked paths alone. -/
theorem writeOutputData_of_loaded (oldCache : Cache) (hl : oldCache.Loaded)
    (bakedFilePaths : List String) :
    writeOutputData oldCache bakedFilePaths =
      .returned
        { baked_textures :=
            (bakedFilePaths.map (fun path =>
              write path (replace_extension (filename path) "") (extension path))).flatten
          baked_meshes := []
          baked_materials := []
          baked_prefabs := [] } := by
  have hseq := Outcome.sequence_returned oldCache (fun kv => writeCachedItem kv.2)
    (fun _ => []) (fun kv hkv => writeCachedItem_loaded kv.2 (hl.2 kv hkv).2.2)
  unfold writeOutputData
  rw [hseq]
  simp [Outcome.bind]

/-- No record of a cache that `loadCache` built yields a line of the texture listing. -/
theorem writeOutputData_loaded (cacheFile : CacheFile) (oldCache : Cache)
    (h : loadCache cacheFile = some oldCache) :
    writeOutputData oldCache [] =
      .returned { baked_textures := [], baked_meshes := [], baked_materials := [],
                  baked_prefabs := [] } := by
  rw [writeOutputData_of_loaded oldCache (loadCache_loaded cacheFile oldCache h)]
  rfl

/-- C5 fails on the code.  A first run, with no cache file, bakes the texture `brickPath`
and writes a texture listing without lines; a second run on the cache file the first one
saved, with the source unchanged, bakes nothing and again writes a texture listing
without lines, although the cache it loaded holds the record of `brickPath`. -/
theorem texture_listing_stays_empty :
    (runTwice 0 (constantConverters true) (brickFileSystem 100) "baked" .absent).map
      (fun runs =>
        (runs.1.bakedFilePaths, runs.1.outputData.map OutputData.baked_textures,
         (runs.1.savedCache.bind (fun document => loadCache (.document document))).map
           Cache.keys,
         runs.2.bakedFilePaths, runs.2.outputData.map OutputData.baked_textures)) =
      some ([brickPath], some [], some [brickPath], [], some []) := by
  decide

/-! ## convertCubeMapTexture (C6, C7, C8) -/

theorem f32Round_of_lt (n : Nat) (h : n < 2 ^ 24) : f32Round n = n := by
  unfold f32Round
  rw [if_pos h]

theorem f32Round_of_four_dvd (n : Nat) (h4 : n % 4 = 0) (h : n < 2 ^ 26) : f32Round n = n := by
  by_cases hlt : n < 2 ^ 24
  · exact f32Round_of_lt n hlt
  · have hn0 : n ≠ 0 := by omega
    have hlo : 24 ≤ n.log2 := (Nat.le_log2 hn0).2 (by omega)
    have hhi : n.log2 < 26 := (Nat.log2_lt hn0).2 h
    have hcases : n.log2 = 24 ∨ n.log2 = 25 := by omega
    unfold f32Round
    rw [if_neg hlt]
    rcases hcases with he | he
    · rw [he]
      have hr : n % 2 ^ (24 - 23) = 0 := by norm_num; omega
      have hq : n / 2 ^ (24 - 23) * 2 ^ (24 - 23) = n := by norm_num; omega
      simp only [hr, hq]
      norm_num
    · rw [he]
      have hr : n % 2 ^ (25 - 23) = 0 := by norm_num; omega
      have hq : n / 2 ^ (25 - 23) * 2 ^ (25 - 23) = n := by norm_num; omega
      simp only [hr, hq]
      norm_num

theorem faceSizeOf_exact (w h : Nat) (hw : w % 4 = 0) (hh : h % 4 = 0) (hwpos : 0 < w)
    (hhpos : 0 < h) (hfit : 6 * (w * h * 3) < 2 ^ 32) :
    faceSizeOf (u32 w) (u32 h) = ((w + 3) / 4) * ((h + 3) / 4) * 8 := by
  obtain ⟨a, rfl⟩ : ∃ a, w = 4 * a := ⟨w / 4, by omega⟩
  obtain ⟨b, rfl⟩ : ∃ b, h = 4 * b := ⟨h / 4, by omega⟩
  have hprod : 4 * a * (4 * b) = 16 * (a * b) := by ring
  rw [hprod] at hfit
  have hapos : 1 ≤ a := by omega
  have hbpos : 1 ≤ b := by omega
  have hab1 : a ≤ a * b := Nat.le_mul_of_pos_right a (by omega)
  have hab2 : b ≤ a * b := Nat.le_mul_of_pos_left b (by omega)
  have hp : a * b < 2 ^ 24 := by omega
  have hwlt : 4 * a < 2 ^ 26 := by omega
  have hhlt : 4 * b < 2 ^ 26 := by omega
  have hu32w : u32 (4 * a) = 4 * a := Nat.mod_eq_of_lt (by omega)
  have hu32h : u32 (4 * b) = 4 * b := Nat.mod_eq_of_lt (by omega)
  have hqa : (4 * a + 3) / 4 = a := by omega
  have hqb : (4 * b + 3) / 4 = b := by omega
  unfold faceSizeOf
  rw [hu32w, hu32h, f32Round_of_four_dvd (4 * a) (by omega) hwlt,
    f32Round_of_four_dvd (4 * b) (by omega) hhlt, hqa, hqb, f32Round_of_lt (a * b) hp]
  have h1 : u32 (a * b) = a * b := Nat.mod_eq_of_lt (by omega)
  rw [h1]
  exact Nat.mod_eq_of_lt (by omega)

theorem facesMismatch_eq_false (fs : Faces) (h : facesMismatch fs = false) :
    ∀ face ∈ fs.all, face.width = fs.front.width ∧ face.height = fs.front.height ∧
      face.channels = fs.front.channels := by
  simp only [facesMismatch, decide_eq_false_iff_not, not_or, not_not] at h
  obtain ⟨h1, h2, h3, h4, h5, h6, h7, h8, h9, h10, h11, h12, h13, h14, h15⟩ := h
  intro face hface
  simp only [Faces.all, List.mem_cons, List.mem_singleton, List.not_mem_nil, or_false] at hface
  rcases hface with rfl | rfl | rfl | rfl | rfl | rfl
  · exact ⟨rfl, rfl, rfl⟩
  · exact ⟨h1.symm, h6.symm, h11.symm⟩
  · exact ⟨h2.symm, h7.symm, h12.symm⟩
  · exact ⟨h3.symm, h8.symm, h13.symm⟩
  · exact ⟨h4.symm, h9.symm, h14.symm⟩
  · exact ⟨h5.symm, h10.symm, h15.symm⟩

theorem facesMismatch_of_differs (fs : Faces)
    (h : ∃ face ∈ fs.all, face.width ≠ fs.front.width ∨ face.height ≠ fs.front.height ∨
      face.channels ≠ fs.front.channels) : facesMismatch fs = true := by
  cases hm : facesMismatch fs with
  | true => rfl
  | false =>
    obtain ⟨face, hface, hdiff⟩ := h
    have := facesMismatch_eq_false fs hm face hface
    rcases hdiff with hd | hd | hd
    · exact absurd this.1 hd
    · exact absurd this.2.1 hd
    · exact absurd this.2.2 hd

theorem accepted_pixels (fs : Faces) (hacc : fs.Accepted) :
    ∀ face ∈ fs.all, face.pixels.length = fs.front.width * fs.front.height * 3 := by
  intro face hface
  have hd := hacc.1 face hface
  have he := facesMismatch_eq_false fs hacc.2.1 face hface
  simp only [Image.Decoded, STBI_rgb] at hd
  rw [hd.2.2.2.1, he.1, he.2.1]
  rfl

/-- What `convertCubeMapTexture` does with an accepted face set whose six-face buffer fits a
`u32` size: the source texture it compresses, the info it packs and the file it writes. -/
theorem convertFaces_accepted (world : World) (inputDir outputFilename : String) (fs : Faces)
    (hacc : fs.Accepted) (hfit : fs.Fits) :
    ∃ src dest info, convertFaces world inputDir outputFilename fs =
        .returned { result := true, compressed := [src],
                    saved := [(outputFilename,
                      .cubeMap info (world.CMP_ConvertTexture src dest).data)] } ∧
      src.pData = fs.front.pixels ++ fs.back.pixels ++ fs.top.pixels ++ fs.bottom.pixels ++
        fs.right.pixels ++ fs.left.pixels ∧
      src.dwWidth = fs.front.width ∧ src.dwHeight = fs.front.height * 6 ∧
      info.faceWidth = fs.front.width ∧ info.faceHeight = fs.front.height ∧
      info.faceSize = ((fs.front.width + 3) / 4) * ((fs.front.height + 3) / 4) * 8 := by
  have hpix := accepted_pixels fs hacc
  have heq := facesMismatch_eq_false fs hacc.2.1
  obtain ⟨hdec, hsame, hw, hh, hc⟩ := hacc
  have hfront := hdec fs.front (by simp [Faces.all])
  simp only [Image.Decoded] at hfront
  have hwpos := hfront.1
  have hhpos := hfront.2.1
  unfold Faces.Fits at hfit
  have htop := heq fs.top (by simp [Faces.all])
  have hN1 : fs.front.width ≤ fs.front.width * fs.front.height :=
    Nat.le_mul_of_pos_right _ hhpos
  have hN2 : fs.front.height ≤ fs.front.width * fs.front.height :=
    Nat.le_mul_of_pos_left _ hwpos
  have hn : u32 (fs.front.width * fs.front.height * fs.front.channels) =
      fs.front.width * fs.front.height * 3 := by
    rw [hc]
    exact Nat.mod_eq_of_lt (by omega)
  have hn6 : u32 (fs.front.width * fs.front.height * 3 * 6) =
      fs.front.width * fs.front.height * 3 * 6 := Nat.mod_eq_of_lt (by omega)
  have hlen : ∀ face ∈ fs.all,
      face.pixels.take (fs.front.width * fs.front.height * 3) = face.pixels := by
    intro face hface
    exact List.take_of_length_le (le_of_eq (hpix face hface))
  have hf := hpix fs.front (by simp [Faces.all])
  have hb := hpix fs.back (by simp [Faces.all])
  have ht := hpix fs.top (by simp [Faces.all])
  have hbo := hpix fs.bottom (by simp [Faces.all])
  have hl := hpix fs.left (by simp [Faces.all])
  have hr := hpix fs.right (by simp [Faces.all])
  have hub : ¬ (u32 (fs.front.width * fs.front.height * 3 * 6) <
        fs.front.width * fs.front.height * 3 * 6 ∨
      fs.front.pixels.length < fs.front.width * fs.front.height * 3 ∨
      fs.back.pixels.length < fs.front.width * fs.front.height * 3 ∨
      fs.top.pixels.length < fs.front.width * fs.front.height * 3 ∨
      fs.bottom.pixels.length < fs.front.width * fs.front.height * 3 ∨
      fs.right.pixels.length < fs.front.width * fs.front.height * 3 ∨
      fs.left.pixels.length < fs.front.width * fs.front.height * 3) := by
    rw [hn6, hf, hb, ht, hbo, hl, hr]
    simp
  have hassert : ¬ (world.assertsEnabled = true ∧ fs.top.channels ≠ 3) := by
    rw [htop.2.2, hc]
    simp
  have hdims : ¬ (fs.front.width % 4 ≠ 0 ∨ fs.front.height % 4 ≠ 0) := by
    simp [hw, hh]
  simp only [convertFaces, hsame, Bool.false_eq_true, if_false, hdims, hassert, hn, hub]
  refine ⟨_, _, _, rfl, ?_, ?_, ?_, ?_, ?_, ?_⟩
  · simp only [hlen fs.front (by simp [Faces.all]), hlen fs.back (by simp [Faces.all]),
      hlen fs.top (by simp [Faces.all]), hlen fs.bottom (by simp [Faces.all]),
      hlen fs.left (by simp [Faces.all]), hlen fs.right (by simp [Faces.all])]
  · show u32 fs.top.width = fs.front.width
    rw [htop.1]
    exact Nat.mod_eq_of_lt (by omega)
  · show u32 (fs.top.height * 6) = fs.front.height * 6
    rw [htop.2.1]
    exact Nat.mod_eq_of_lt (by omega)
  · show u32 fs.top.width = fs.front.width
    rw [htop.1]
    exact Nat.mod_eq_of_lt (by omega)
  · show u32 fs.top.height = fs.front.height
    rw [htop.2.1]
    exact Nat.mod_eq_of_lt (by omega)
  · show faceSizeOf (u32 fs.top.width) (u32 fs.top.height) = _
    rw [htop.1, htop.2.1]
    exact faceSizeOf_exact _ _ hw hh hwpos hhpos hfit

theorem convertCubeMapTexture_of_faces (world : World) (inputDir outputFilename : String)
    (entries : List DirEntry) (fs : Faces)
    (hdir : world.directory_iterator inputDir = some entries)
    (hload : loadFaces world inputDir (firstExtension entries) = some fs) :
    convertCubeMapTexture world inputDir outputFilename =
      convertFaces world inputDir outputFilename fs := by
  simp [convertCubeMapTexture, hdir, hload]

/-- An accepted face set whose six-face buffer size does not fit a `u32`: the size handed to
`malloc` wraps, the six copies overrun the buffer, and the behaviour is undefined. -/
theorem convertFaces_accepted_overflow (world : World) (inputDir outputFilename : String)
    (fs : Faces) (hacc : fs.Accepted) (hnf : ¬ fs.Fits) :
    convertFaces world inputDir outputFilename fs = .undefined := by
  have heq := facesMismatch_eq_false fs hacc.2.1
  obtain ⟨hdec, hsame, hw, hh, hc⟩ := hacc
  have hfront := hdec fs.front (by simp [Faces.all])
  simp only [Image.Decoded, STBI_rgb] at hfront
  have hlt : fs.front.width * fs.front.height * 3 < 2 ^ 31 := by
    have := hfront.2.2.2.2
    simpa using this
  have htop := heq fs.top (by simp [Faces.all])
  unfold Faces.Fits at hnf
  have hn : u32 (fs.front.width * fs.front.height * fs.front.channels) =
      fs.front.width * fs.front.height * 3 := by
    rw [hc]
    exact Nat.mod_eq_of_lt (by omega)
  have hwrap : u32 (fs.front.width * fs.front.height * 3 * 6) <
      fs.front.width * fs.front.height * 3 * 6 := by
    have : u32 (fs.front.width * fs.front.height * 3 * 6) < 2 ^ 32 :=
      Nat.mod_lt _ (by norm_num)
    omega
  have hassert : ¬ (world.assertsEnabled = true ∧ fs.top.channels ≠ 3) := by
    rw [htop.2.2, hc]
    simp
  have hdims : ¬ (fs.front.width % 4 ≠ 0 ∨ fs.front.height % 4 ≠ 0) := by
    simp [hw, hh]
  simp only [convertFaces, hsame, Bool.false_eq_true, if_false, hdims, hassert, hn, hwrap,
    true_or, if_true]

/-- The six loads of `largeWorld width height` succeed, whatever the directory and the
extension. -/
theorem loadFaces_largeWorld (width height : Nat) (inputDir ext : String) :
    loadFaces (largeWorld width height) inputDir ext = some (largeFaces width height) := rfl

/-- Faces of positive sides divisible by 4 whose RGB bytes fit an `int` are accepted. -/
theorem largeFaces_accepted (w h : Nat) (hw : 0 < w) (hh : 0 < h) (hw4 : w % 4 = 0)
    (hh4 : h % 4 = 0) (hsize : w * h * 3 < 2 ^ 31) : (largeFaces w h).Accepted := by
  refine ⟨?_, ?_, hw4, hh4, rfl⟩
  · intro face hface
    simp only [Faces.all, largeFaces, List.mem_cons, List.mem_singleton, List.not_mem_nil,
      or_false, or_self] at hface
    subst hface
    refine ⟨hw, hh, Nat.succ_pos 2, ?_, ?_⟩
    · simp [blankImage, STBI_rgb]
    · simpa [blankImage, STBI_rgb] using hsize
  · simp [facesMismatch, largeFaces]

/-- Six faces of `w * h * 3` bytes each, `2 ^ 32` bytes or more together, do not fit. -/
theorem largeFaces_not_fits (w h : Nat) (hsize : 2 ^ 32 ≤ 6 * (w * h * 3)) :
    ¬ (largeFaces w h).Fits := by
  intro hfit
  have : 6 * (w * h * 3) < 2 ^ 32 := hfit
  omega

/-- C7: when the six faces load and at least one of them differs from the front face in
width, height or channel count, `convertCubeMapTexture` returns false, having compressed
nothing and written no file. -/
theorem cubemap_mismatch_fails (world : World) (inputDir outputFilename : String)
    (entries : List DirEntry) (fs : Faces)
    (hdir : world.directory_iterator inputDir = some entries)
    (hload : loadFaces world inputDir (firstExtension entries) = some fs)
    (hdiff : ∃ face ∈ fs.all, face.width ≠ fs.front.width ∨ face.height ≠ fs.front.height ∨
      face.channels ≠ fs.front.channels) :
    convertCubeMapTexture world inputDir outputFilename =
      .returned { result := false, compressed := [], saved := [] } := by
  rw [convertCubeMapTexture_of_faces world inputDir outputFilename entries fs hdir hload]
  simp [convertFaces, facesMismatch_of_differs fs hdiff]

/-- C7 at six RGB faces 8 wide, five of height 8 and the top face of height 4. -/
theorem cubemap_mismatch_fails_witness :
    convertCubeMapTexture (skyWorld 4 (some 0)) skyDir skyOut =
      .returned { result := false, compressed := [], saved := [] } :=
  cubemap_mismatch_fails (skyWorld 4 (some 0)) skyDir skyOut
    [{ path := "assets/skyboxes/sky/back.png", is_directory := false, is_regular_file := true }]
    { skyFaces with top := blankImage 8 4 3 3 } rfl (by decide)
    ⟨blankImage 8 4 3 3, by decide, by decide⟩

/-- Whatever `CMP_ConvertTexture` reports, `convertTexture` of a 3-channel image returns true
and writes one file, holding what the call left in the destination buffer. -/
theorem convertTexture_three_channels (world : World) (inputPath outputFilename : String)
    (img : Image) (hload : world.stbi_load inputPath 0 = some img) (hc : img.channels = 3) :
    ∃ src dest info, convertTexture world inputPath outputFilename =
      .returned { result := true, compressed := [src],
                  saved := [(outputFilename,
                    .texture info (world.CMP_ConvertTexture src dest).data)] } := by
  simp only [convertTexture, hload, hc]
  simp only [OfNat.ofNat_ne_one, or_false, not_true_eq_false, and_false, if_false]
  exact ⟨_, _, _, rfl⟩

/-- With a channel count other than 1 and 3, `convertTexture` aborts when `assert` is
compiled in, and else returns true without writing a file. -/
theorem convertTexture_other_channels (world : World) (inputPath outputFilename : String)
    (img : Image) (hload : world.stbi_load inputPath 0 = some img) (h1 : img.channels ≠ 1)
    (h3 : img.channels ≠ 3) :
    convertTexture world inputPath outputFilename =
      if world.assertsEnabled then .aborted
      else .returned { result := true, compressed := [], saved := [] } := by
  cases ha : world.assertsEnabled <;> simp [convertTexture, hload, h1, h3, ha]

/-- C9 fails on the code: for a 4 by 4 RGB image whose compression ends with the status
`CMP_ERR_INVALID_SOURCE_TEXTURE` (2), or with an exception, `convertTexture` returns true and
has written the output file. -/
theorem convertTexture_compressor_failure :
    (match convertTexture (textureWorld true 3 (some 2)) brickPath brickOut with
      | .returned c => some (c.result, c.saved.map Prod.fst)
      | _ => none) = some (true, [brickOut]) ∧
    (match convertTexture (textureWorld true 3 none) brickPath brickOut with
      | .returned c => some (c.result, c.saved.map Prod.fst)
      | _ => none) = some (true, [brickOut]) := by
  decide

/-- C10 fails on the code: for a decoded 4 by 4 image of 4 channels (and of 2), compiled
without `assert`, `convertTexture` returns true and has written no file; compiled with
`assert`, it aborts the run. -/
theorem convertTexture_unsupported_channels :
    convertTexture (textureWorld false 4 (some 0)) brickPath brickOut =
      .returned { result := true, compressed := [], saved := [] } ∧
    convertTexture (textureWorld false 2 (some 0)) brickPath brickOut =
      .returned { result := true, compressed := [], saved := [] } ∧
    convertTexture (textureWorld true 4 (some 0)) brickPath brickOut = .aborted ∧
    convertTexture (textureWorld true 2 (some 0)) brickPath brickOut = .aborted := by
  decide

/-! ## Two runs in a row (C1) -/

theorem bakeEntries_mono (upToDate : String → Bool) (wanted : DirEntry → Bool)
    (exportPath : String → String) (kind : ConverterKind)
    (convert : String → String → Outcome Bool) (remember : Bool) (entries : List DirEntry)
    (st st1 : BakeState)
    (h : bakeEntries upToDate wanted exportPath kind convert remember entries st =
      .returned st1) :
    (∀ p ∈ st.bakedFilePaths, p ∈ st1.bakedFilePaths) ∧
    (∀ inv ∈ st.invocations, inv ∈ st1.invocations) := by
  induction entries generalizing st with
  | nil =>
    simp only [bakeEntries, Outcome.returned.injEq] at h
    subst h
    exact ⟨fun _ hp => hp, fun _ hi => hi⟩
  | cons entry rest ih =>
    unfold bakeEntries at h
    by_cases hu : upToDate entry.path = true
    · rw [if_pos hu] at h
      exact ih st h
    · rw [if_neg hu] at h
      by_cases hw : wanted entry = true
      · rw [if_pos hw] at h
        cases hc : convert entry.path (exportPath entry.path) with
        | aborted => rw [hc] at h; cases h
        | undefined => rw [hc] at h; cases h
        | returned ok =>
          rw [hc] at h
          have := ih _ h
          constructor
          · intro p hp
            apply this.1
            by_cases hr : (remember && ok) = true
            · simp [hr, hp]
            · simp [hr, hp]
          · intro inv hi
            apply this.2
            simp [hi]
      · rw [if_neg hw] at h
        exact ih st h

/-- One loop of `main`, run a second time with an up-to-date test that accepts whatever the
first accepted and every path the first run baked: it returns, pushes nothing, and calls the
converter only where the first run called it and, in a loop that records successes, got
false. -/
theorem bakeEntries_again (u1 u2 : String → Bool) (wanted : DirEntry → Bool)
    (exportPath : String → String) (kind : ConverterKind)
    (convert : String → String → Outcome Bool) (remember : Bool) (entries : List DirEntry)
    (hmono : ∀ p, u1 p = true → u2 p = true) (s1 s1x t : BakeState)
    (h1 : bakeEntries u1 wanted exportPath kind convert remember entries s1 = .returned s1x)
    (hbaked : ∀ p ∈ s1x.bakedFilePaths, u2 p = true) :
    ∃ tx, bakeEntries u2 wanted exportPath kind convert remember entries t = .returned tx ∧
      tx.bakedFilePaths = t.bakedFilePaths ∧
      ∀ inv ∈ tx.invocations, inv ∈ t.invocations ∨
        (inv ∈ s1x.invocations ∧ inv.kind = kind ∧
          (remember = true → convert inv.inputPath inv.outputFilename = .returned false)) := by
  induction entries generalizing s1 t with
  | nil =>
    exact ⟨t, rfl, rfl, fun inv hi => Or.inl hi⟩
  | cons entry rest ih =>
    unfold bakeEntries at h1 ⊢
    by_cases hu1 : u1 entry.path = true
    · rw [if_pos hu1] at h1
      rw [if_pos (hmono _ hu1)]
      exact ih s1 t h1
    · rw [if_neg hu1] at h1
      by_cases hw : wanted entry = true
      · rw [if_pos hw] at h1
        cases hc : convert entry.path (exportPath entry.path) with
        | aborted => rw [hc] at h1; cases h1
        | undefined => rw [hc] at h1; cases h1
        | returned ok =>
          rw [hc] at h1
          by_cases hu2 : u2 entry.path = true
          · rw [if_pos hu2]
            exact ih _ t h1
          · rw [if_neg hu2, if_pos hw]
            simp only []
            have hmono1 := bakeEntries_mono _ _ _ _ _ _ _ _ _ h1
            have hnot : (remember && ok) = false := by
              cases hr : (remember && ok) with
              | false => rfl
              | true =>
                exfalso
                apply hu2
                apply hbaked
                apply hmono1.1
                simp [hr]
            obtain ⟨tx, htx, hb, hinv⟩ := ih _
              { bakedFilePaths := if (remember && ok) = true then
                    t.bakedFilePaths ++ [entry.path] else t.bakedFilePaths
                invocations := t.invocations ++ [⟨kind, entry.path, exportPath entry.path⟩] } h1
            refine ⟨tx, htx, ?_, ?_⟩
            · rw [hb]
              simp [hnot]
            · intro inv hi
              rcases hinv inv hi with h | h
              · simp only [List.mem_append, List.mem_singleton] at h
                rcases h with h | h
                · exact Or.inl h
                · right
                  subst h
                  refine ⟨?_, rfl, ?_⟩
                  · apply hmono1.2
                    simp
                  · intro hrem
                    rw [hrem] at hnot
                    simp only [Bool.true_and] at hnot
                    rw [hc, hnot]
              · exact Or.inr h
      · rw [if_neg hw] at h1
        by_cases hu2 : u2 entry.path = true
        · rw [if_pos hu2]
          exact ih s1 t h1
        · rw [if_neg hu2, if_neg hw]
          exact ih s1 t h1

theorem newlyCachedItems_spec (lastModifiedTimeStamp : String → Int)
    (bakedFilePaths : List String) :
    (∀ r ∈ newlyCachedItems lastModifiedTimeStamp bakedFilePaths,
      r.originalFileLastModified = lastModifiedTimeStamp r.originalFileName) ∧
    (bakedFilePaths.length < 2 ^ 32 →
      (newlyCachedItems lastModifiedTimeStamp bakedFilePaths).map
        AssetBakeCachedItem.originalFileName = bakedFilePaths) := by
  constructor
  · intro r hr
    simp only [newlyCachedItems, List.mem_map] at hr
    obtain ⟨p, _, rfl⟩ := hr
    rfl
  · intro hlen
    simp only [newlyCachedItems, u32, Nat.mod_eq_of_lt hlen, List.take_length, List.map_map]
    exact List.map_id _

/-- Against the cache a run saved, a path is up to date when it was up to date against the
cache the run loaded, and when the run baked it. -/
theorem fileUpToDate_saved (epsilon : Nat) (lastModifiedTimeStamp : String → Int)
    (oldCache : Cache) (hold : oldCache.Loaded) (bakedFilePaths : List String)
    (hlen : bakedFilePaths.length < 2 ^ 32) (p : String)
    (h : fileUpToDate epsilon lastModifiedTimeStamp oldCache p = true ∨ p ∈ bakedFilePaths) :
    fileUpToDate epsilon lastModifiedTimeStamp
      (Cache.assignAll [] (oldCache.map Prod.snd ++
        newlyCachedItems lastModifiedTimeStamp bakedFilePaths)) p = true := by
  have hspec := newlyCachedItems_spec lastModifiedTimeStamp bakedFilePaths
  unfold fileUpToDate
  rw [Cache.find_assignAll_loaded oldCache hold]
  cases hlast : lastRecord (newlyCachedItems lastModifiedTimeStamp bakedFilePaths) p with
  | some r =>
    have hr := lastRecord_name _ _ _ hlast
    have ht := hspec.1 r hr.1
    simp only [AssetBakeCachedItem.persisted, epsilonComparison, ht, hr.2]
    simp
  | none =>
    rcases h with h | h
    · simpa [fileUpToDate] using h
    · exfalso
      have := (lastRecord_eq_none_iff _ _).mp hlast
      rw [hspec.2 hlen] at this
      exact this h

theorem bakeSkyboxes_again (epsilon : Nat) (conv : Converters) (fs : FileSystem)
    (bakedAssetDir : String) (c1 c2 : Cache)
    (hmono : ∀ p, fileUpToDate epsilon fs.lastModifiedTimeStamp c1 p = true →
      fileUpToDate epsilon fs.lastModifiedTimeStamp c2 p = true)
    (s1 s1x t : BakeState)
    (h1 : bakeSkyboxes epsilon conv fs bakedAssetDir c1 s1 = .returned s1x)
    (hbaked : ∀ p ∈ s1x.bakedFilePaths,
      fileUpToDate epsilon fs.lastModifiedTimeStamp c2 p = true) :
    ∃ tx, bakeSkyboxes epsilon conv fs bakedAssetDir c2 t = .returned tx ∧
      tx.bakedFilePaths = t.bakedFilePaths ∧
      ∀ inv ∈ tx.invocations, inv ∈ t.invocations ∨
        (inv ∈ s1x.invocations ∧
          (inv.kind ≠ .model →
            conv.ofKind inv.kind inv.inputPath inv.outputFilename = .returned false)) := by
  unfold bakeSkyboxes at h1 ⊢
  cases hdir : fs.skyboxes with
  | absent => rw [hdir] at h1; cases h1
  | notDirectory => rw [hdir] at h1; cases h1
  | directory entries =>
    rw [hdir] at h1
    obtain ⟨tx, htx, hb, hinv⟩ := bakeEntries_again _ _ _ _ _ _ _ entries hmono s1 s1x t h1 hbaked
    refine ⟨tx, htx, hb, ?_⟩
    intro inv hi
    rcases hinv inv hi with h | ⟨hin, hk, hc⟩
    · exact Or.inl h
    · refine Or.inr ⟨hin, fun _ => ?_⟩
      rw [hk]
      exact hc rfl

theorem bakeTextures_again (epsilon : Nat) (conv : Converters) (fs : FileSystem)
    (bakedAssetDir : String) (c1 c2 : Cache)
    (hmono : ∀ p, fileUpToDate epsilon fs.lastModifiedTimeStamp c1 p = true →
      fileUpToDate epsilon fs.lastModifiedTimeStamp c2 p = true)
    (s1 s1x t : BakeState)
    (h1 : bakeTextures epsilon conv fs bakedAssetDir c1 s1 = .returned s1x)
    (hbaked : ∀ p ∈ s1x.bakedFilePaths,
      fileUpToDate epsilon fs.lastModifiedTimeStamp c2 p = true) :
    ∃ tx, bakeTextures epsilon conv fs bakedAssetDir c2 t = .returned tx ∧
      tx.bakedFilePaths = t.bakedFilePaths ∧
      ∀ inv ∈ tx.invocations, inv ∈ t.invocations ∨
        (inv ∈ s1x.invocations ∧
          (inv.kind ≠ .model →
            conv.ofKind inv.kind inv.inputPath inv.outputFilename = .returned false)) := by
  unfold bakeTextures at h1 ⊢
  cases hdir : fs.textures with
  | absent => exact ⟨t, rfl, rfl, fun inv hi => Or.inl hi⟩
  | notDirectory => rw [hdir] at h1; cases h1
  | directory entries =>
    rw [hdir] at h1
    obtain ⟨tx, htx, hb, hinv⟩ := bakeEntries_again _ _ _ _ _ _ _ entries hmono s1 s1x t h1 hbaked
    refine ⟨tx, htx, hb, ?_⟩
    intro inv hi
    rcases hinv inv hi with h | ⟨hin, hk, hc⟩
    · exact Or.inl h
    · refine Or.inr ⟨hin, fun _ => ?_⟩
      rw [hk]
      exact hc rfl

theorem bakeModels_again (epsilon : Nat) (conv : Converters) (fs : FileSystem)
    (bakedAssetDir : String) (c1 c2 : Cache)
    (hmono : ∀ p, fileUpToDate epsilon fs.lastModifiedTimeStamp c1 p = true →
      fileUpToDate epsilon fs.lastModifiedTimeStamp c2 p = true)
    (s1 s1x t : BakeState)
    (h1 : bakeModels epsilon conv fs bakedAssetDir c1 s1 = .returned s1x)
    (hbaked : ∀ p ∈ s1x.bakedFilePaths,
      fileUpToDate epsilon fs.lastModifiedTimeStamp c2 p = true) :
    ∃ tx, bakeModels epsilon conv fs bakedAssetDir c2 t = .returned tx ∧
      tx.bakedFilePaths = t.bakedFilePaths ∧
      ∀ inv ∈ tx.invocations, inv ∈ t.invocations ∨
        (inv ∈ s1x.invocations ∧
          (inv.kind ≠ .model →
            conv.ofKind inv.kind inv.inputPath inv.outputFilename = .returned false)) := by
  unfold bakeModels at h1 ⊢
  cases hdir : fs.models with
  | absent => exact ⟨t, rfl, rfl, fun inv hi => Or.inl hi⟩
  | notDirectory => rw [hdir] at h1; cases h1
  | directory entries =>
    rw [hdir] at h1
    obtain ⟨tx, htx, hb, hinv⟩ := bakeEntries_again _ _ _ _ _ _ _ entries hmono s1 s1x t h1 hbaked
    refine ⟨tx, htx, hb, ?_⟩
    intro inv hi
    rcases hinv inv hi with h | ⟨hin, hk, _⟩
    · exact Or.inl h
    · exact Or.inr ⟨hin, fun hne => absurd hk hne⟩

theorem bakeSkyboxes_mono (epsilon : Nat) (conv : Converters) (fs : FileSystem)
    (bakedAssetDir : String) (c : Cache) (st st1 : BakeState)
    (h : bakeSkyboxes epsilon conv fs bakedAssetDir c st = .returned st1) :
    (∀ p ∈ st.bakedFilePaths, p ∈ st1.bakedFilePaths) ∧
    (∀ inv ∈ st.invocations, inv ∈ st1.invocations) := by
  unfold bakeSkyboxes at h
  cases hdir : fs.skyboxes with
  | absent => rw [hdir] at h; cases h
  | notDirectory => rw [hdir] at h; cases h
  | directory entries =>
    rw [hdir] at h
    exact bakeEntries_mono _ _ _ _ _ _ _ _ _ h

theorem bakeTextures_mono (epsilon : Nat) (conv : Converters) (fs : FileSystem)
    (bakedAssetDir : String) (c : Cache) (st st1 : BakeState)
    (h : bakeTextures epsilon conv fs bakedAssetDir c st = .returned st1) :
    (∀ p ∈ st.bakedFilePaths, p ∈ st1.bakedFilePaths) ∧
    (∀ inv ∈ st.invocations, inv ∈ st1.invocations) := by
  unfold bakeTextures at h
  cases hdir : fs.textures with
  | absent =>
    rw [hdir] at h
    simp only [Outcome.returned.injEq] at h
    subst h
    exact ⟨fun _ hp => hp, fun _ hi => hi⟩
  | notDirectory => rw [hdir] at h; cases h
  | directory entries =>
    rw [hdir] at h
    exact bakeEntries_mono _ _ _ _ _ _ _ _ _ h

theorem bakeModels_mono (epsilon : Nat) (conv : Converters) (fs : FileSystem)
    (bakedAssetDir : String) (c : Cache) (st st1 : BakeState)
    (h : bakeModels epsilon conv fs bakedAssetDir c st = .returned st1) :
    (∀ p ∈ st.bakedFilePaths, p ∈ st1.bakedFilePaths) ∧
    (∀ inv ∈ st.invocations, inv ∈ st1.invocations) := by
  unfold bakeModels at h
  cases hdir : fs.models with
  | absent =>
    rw [hdir] at h
    simp only [Outcome.returned.injEq] at h
    subst h
    exact ⟨fun _ hp => hp, fun _ hi => hi⟩
  | notDirectory => rw [hdir] at h; cases h
  | directory entries =>
    rw [hdir] at h
    exact bakeEntries_mono _ _ _ _ _ _ _ _ _ h

/-- What a run of `main` that saved a cache went through. -/
theorem main_saved (epsilon : Nat) (conv : Converters) (fs : FileSystem)
    (bakedAssetDir : String) (cacheFile : CacheFile) (r : MainResult) (document : Json)
    (h : main epsilon conv fs bakedAssetDir cacheFile = .returned r)
    (hsaved : r.savedCache = some document) :
    ∃ oldCache st1 st2 st3, loadCache cacheFile = some oldCache ∧
      fs.assetsDirIsDirectory = true ∧
      bakeSkyboxes epsilon conv fs bakedAssetDir oldCache ⟨[], []⟩ = .returned st1 ∧
      bakeTextures epsilon conv fs bakedAssetDir oldCache st1 = .returned st2 ∧
      bakeModels epsilon conv fs bakedAssetDir oldCache st2 = .returned st3 ∧
      saveCache oldCache (newlyCachedItems fs.lastModifiedTimeStamp st3.bakedFilePaths) =
        some document ∧
      r.bakedFilePaths = st3.bakedFilePaths ∧ r.invocations = st3.invocations := by
  unfold main at h
  cases hload : loadCache cacheFile with
  | none => rw [hload] at h; cases h
  | some oldCache =>
    rw [hload] at h
    simp only at h
    cases hdir : fs.assetsDirIsDirectory with
    | false =>
      rw [hdir] at h
      simp only [Bool.not_false, if_true, Outcome.returned.injEq] at h
      subst h
      simp at hsaved
    | true =>
      rw [hdir] at h
      simp only [Bool.not_true, Bool.false_eq_true, if_false] at h
      cases hs1 : bakeSkyboxes epsilon conv fs bakedAssetDir oldCache ⟨[], []⟩ with
      | aborted => rw [hs1] at h; cases h
      | undefined => rw [hs1] at h; cases h
      | returned st1 =>
        rw [hs1] at h
        simp only [Outcome.bind] at h
        cases hs2 : bakeTextures epsilon conv fs bakedAssetDir oldCache st1 with
        | aborted => rw [hs2] at h; cases h
        | undefined => rw [hs2] at h; cases h
        | returned st2 =>
          rw [hs2] at h
          simp only [Outcome.bind] at h
          cases hs3 : bakeModels epsilon conv fs bakedAssetDir oldCache st2 with
          | aborted => rw [hs3] at h; cases h
          | undefined => rw [hs3] at h; cases h
          | returned st3 =>
            rw [hs3] at h
            simp only [Outcome.bind] at h
            rw [writeOutputData_of_loaded oldCache (loadCache_loaded cacheFile oldCache hload)]
              at h
            simp only [Outcome.bind] at h
            cases hsave : saveCache oldCache
                (newlyCachedItems fs.lastModifiedTimeStamp st3.bakedFilePaths) with
            | none => rw [hsave] at h; cases h
            | some doc =>
              rw [hsave] at h
              simp only [Outcome.returned.injEq] at h
              subst h
              simp only [Option.some.injEq] at hsaved
              subst hsaved
              exact ⟨oldCache, st1, st2, st3, rfl, rfl, hs1, hs2, hs3, hsave, rfl, rfl⟩

/-- C1, as stated, fails: with one texture source whose conversion fails, a first run (no
cache file) completes, and the second run, on the cache the first one saved and with the
source untouched, calls `convertTexture` on that source again. -/
theorem failed_texture_is_converted_again :
    (runTwice 0 (constantConverters false) (brickFileSystem 100) "baked" .absent).map
      (fun runs => (runs.1.exitCode, runs.2.bakedFilePaths, runs.2.invocations)) =
      some (0, [], [⟨.texture, brickPath, brickOut⟩]) := by
  decide

/-- C1 (amended): when `main` runs to completion (it saved a cache, having baked fewer than
`2 ^ 32` sources) and is run again on the cache it saved, with the same sources, time stamps
and converters, the second run completes, leaves `bakedFilePaths` empty, and calls a
converter only on sources on which the first run called it, and the cube map and texture
converters only where they returned false in the first run: every source that was up to
date or baked in the first run is skipped. -/
theorem second_run_bakes_nothing (epsilon : Nat) (conv : Converters) (fs : FileSystem)
    (bakedAssetDir : String) (cacheFile : CacheFile) (r1 : MainResult) (document : Json)
    (h1 : main epsilon conv fs bakedAssetDir cacheFile = .returned r1)
    (hsaved : r1.savedCache = some document)
    (hcount : r1.bakedFilePaths.length < 2 ^ 32) :
    ∃ r2, main epsilon conv fs bakedAssetDir (.document document) = .returned r2 ∧
      r2.exitCode = 0 ∧ r2.bakedFilePaths = [] ∧
      ∀ inv ∈ r2.invocations, inv ∈ r1.invocations ∧
        (inv.kind ≠ .model →
          conv.ofKind inv.kind inv.inputPath inv.outputFilename = .returned false) := by
  obtain ⟨oldCache, st1, st2, st3, hload, hdir, hs1, hs2, hs3, hsave, hb, hi⟩ :=
    main_saved epsilon conv fs bakedAssetDir cacheFile r1 document h1 hsaved
  have hold := loadCache_loaded _ _ hload
  have hround := loadCache_saveCache oldCache
    (newlyCachedItems fs.lastModifiedTimeStamp st3.bakedFilePaths)
  rw [hsave] at hround
  simp only [Option.some_bind] at hround
  rw [hb] at hcount
  have hup := fileUpToDate_saved epsilon fs.lastModifiedTimeStamp oldCache hold
    st3.bakedFilePaths hcount
  have m2 := bakeTextures_mono _ _ _ _ _ _ _ hs2
  have m3 := bakeModels_mono _ _ _ _ _ _ _ hs3
  obtain ⟨t1, ht1, hb1, hi1⟩ := bakeSkyboxes_again epsilon conv fs bakedAssetDir oldCache _
    (fun p h => hup p (Or.inl h)) _ st1 ⟨[], []⟩ hs1
    (fun p hp => hup p (Or.inr (m3.1 p (m2.1 p hp))))
  obtain ⟨t2, ht2, hb2, hi2⟩ := bakeTextures_again epsilon conv fs bakedAssetDir oldCache _
    (fun p h => hup p (Or.inl h)) _ st2 t1 hs2
    (fun p hp => hup p (Or.inr (m3.1 p hp)))
  obtain ⟨t3, ht3, hb3, hi3⟩ := bakeModels_again epsilon conv fs bakedAssetDir oldCache _
    (fun p h => hup p (Or.inl h)) _ st3 t2 hs3
    (fun p hp => hup p (Or.inr hp))
  have hmerged := loadCache_loaded _ _ hround
  unfold main
  rw [hround]
  simp only [hdir, Bool.not_true, Bool.false_eq_true, if_false, ht1, Outcome.bind, ht2, ht3,
    writeOutputData_of_loaded _ hmerged, saveCache_eq]
  refine ⟨_, rfl, rfl, ?_, ?_⟩
  · show t3.bakedFilePaths = []
    rw [hb3, hb2, hb1]
  · intro inv hinv
    rw [hi]
    rcases hi3 inv hinv with h | h
    · rcases hi2 inv h with h | h
      · rcases hi1 inv h with h | h
        · simp at h
        · exact ⟨m3.2 inv (m2.2 inv h.1), h.2⟩
      · exact ⟨m3.2 inv h.1, h.2⟩
    · exact h

/-- C1 (amended) at a concrete tree, one texture that the first run bakes: the second run
completes and bakes nothing. -/
theorem second_run_bakes_nothing_witness :
    ∃ r1 document r2,
      main 0 (constantConverters true) (brickFileSystem 100) "baked" .absent = .returned r1 ∧
      r1.savedCache = some document ∧ r1.bakedFilePaths = [brickPath] ∧
      main 0 (constantConverters true) (brickFileSystem 100) "baked" (.document document) =
        .returned r2 ∧
      r2.exitCode = 0 ∧ r2.bakedFilePaths = [] ∧
      ∀ inv ∈ r2.invocations, inv ∈ r1.invocations ∧
        (inv.kind ≠ .model →
          (constantConverters true).ofKind inv.kind inv.inputPath inv.outputFilename =
            .returned false) := by
  have hrun : main 0 (constantConverters true) (brickFileSystem 100) "baked" .absent =
      .returned
        { exitCode := 0, bakedFilePaths := [brickPath],
          invocations := [⟨.texture, brickPath, brickOut⟩],
          outputData := some { baked_textures := [], baked_meshes := [],
                               baked_materials := [], baked_prefabs := [] },
          savedCache := some (.object [(cacheJsonStrings.cacheFiles,
            arrayOrNull (([] ++ newlyCachedItems (brickFileSystem 100).lastModifiedTimeStamp
              [brickPath]).map itemJson))]) } := by
    simp only [main, loadCache, brickFileSystem, bakeSkyboxes, bakeTextures, bakeModels,
      bakeEntries, Outcome.bind, constantConverters, fileUpToDate, Cache.find]
    rfl
  obtain ⟨r2, hr2, hexit, hbaked, hinv⟩ :=
    second_run_bakes_nothing 0 (constantConverters true) (brickFileSystem 100) "baked" .absent
      _ _ hrun rfl (by decide)
  exact ⟨_, _, r2, hrun, rfl, rfl, hr2, hexit, hbaked, hinv⟩

/-! ## Identifiers of the texture listing (C15) -/

theorem replace_data (s : String) :
    (replace s ['.', '-'] 2 '_').data =
      s.data.map (fun c => if c = '.' ∨ c = '-' then '_' else c) := by
  simp [replace]

/-- C15: `replace(s, {'.', '-'}, 2, '_')` keeps the length of `s`; at every position it holds
`_` where `s` holds `.` or `-` and the character of `s` elsewhere; so it contains neither `.`
nor `-`, and it is the identifier of the line `write` emits for a baked texture. -/
theorem replace_sanitises (s : String) :
    (replace s ['.', '-'] 2 '_').data.length = s.data.length ∧
    (∀ i : Nat, (replace s ['.', '-'] 2 '_').data[i]? =
      (s.data[i]?).map (fun c => if c = '.' ∨ c = '-' then '_' else c)) ∧
    (∀ c ∈ (replace s ['.', '-'] 2 '_').data, c ≠ '.' ∧ c ≠ '-') ∧
    (∀ bakedPath, write bakedPath s bakedExtensions.texture =
      ["BakedTexture(" ++ replace s ['.', '-'] 2 '_' ++ "," ++ String.singleton dquote ++
        replaceBackSlashes bakedPath ++ String.singleton dquote ++ ")" ++
        String.singleton newline]) := by
  refine ⟨?_, ?_, ?_, ?_⟩
  · rw [replace_data, List.length_map]
  · intro i
    rw [replace_data, List.getElem?_map]
  · intro c hc
    rw [replace_data, List.mem_map] at hc
    obtain ⟨d, _, hd⟩ := hc
    by_cases h : d = '.' ∨ d = '-'
    · rw [if_pos h] at hd
      subst hd
      decide
    · rw [if_neg h] at hd
      subst hd
      exact ⟨fun e => h (Or.inl e), fun e => h (Or.inr e)⟩
  · intro bakedPath
    simp [write]

/-- C15 at a file name with both characters. -/
theorem replace_sanitises_witness :
    replace "my-brick.v2" ['.', '-'] 2 '_' = "my_brick_v2" ∧
    (∀ c ∈ (replace "my-brick.v2" ['.', '-'] 2 '_').data, c ≠ '.' ∧ c ≠ '-') :=
  ⟨by decide, (replace_sanitises "my-brick.v2").2.2.1⟩

/-! ## Texture formats (C16) -/

/-- C16: a decoded 1-channel image of width `W` and height `H` is packed as it was decoded,
with format `R8`, width `W`, height `H` and size `W * H`; for a decoded 3-channel image the
buffer the compressor filled is packed, with format `ETC2_RGB` and the same `W` and `H`.
Either way `convertTexture` returns true and writes that one file. -/
theorem texture_format_round_trip (world : World) (inputPath outputFilename : String)
    (img : Image) (hload : world.stbi_load inputPath 0 = some img) :
    (img.channels = 1 →
      convertTexture world inputPath outputFilename =
        .returned { result := true, compressed := [],
                    saved := [(outputFilename,
                      .texture { size := img.width * img.height, originalFileName := inputPath,
                                 width := img.width, height := img.height, format := .R8 }
                        img.pixels)] }) ∧
    (img.channels = 3 →
      ∃ src dest size, convertTexture world inputPath outputFilename =
        .returned { result := true, compressed := [src],
                    saved := [(outputFilename,
                      .texture { size := size, originalFileName := inputPath,
                                 width := img.width, height := img.height,
                                 format := .ETC2_RGB }
                        (world.CMP_ConvertTexture src dest).data)] } ∧
        src.pData = img.pixels ∧ src.format = .RGB_888 ∧ dest.format = .ETC2_RGB) := by
  constructor
  · intro hc
    simp [convertTexture, hload, hc]
  · intro hc
    simp only [convertTexture, hload, hc]
    simp only [OfNat.ofNat_ne_one, or_false, not_true_eq_false, and_false, if_false]
    exact ⟨_, _, _, rfl, rfl, rfl, rfl⟩

/-- C16 at a 4 by 4 image of one channel and at one of three channels. -/
theorem texture_format_round_trip_witness :
    convertTexture (textureWorld true 1 (some 0)) brickPath brickOut =
      .returned { result := true, compressed := [],
                  saved := [(brickOut,
                    .texture { size := 16, originalFileName := brickPath, width := 4,
                               height := 4, format := .R8 } (List.replicate 16 0))] } ∧
    ∃ src dest size, convertTexture (textureWorld true 3 (some 0)) brickPath brickOut =
      .returned { result := true, compressed := [src],
                  saved := [(brickOut,
                    .texture { size := size, originalFileName := brickPath, width := 4,
                               height := 4, format := .ETC2_RGB }
                      ((textureWorld true 3 (some 0)).CMP_ConvertTexture src dest).data)] } ∧
      src.pData = List.replicate 48 0 ∧ src.format = .RGB_888 ∧ dest.format = .ETC2_RGB :=
  ⟨(texture_format_round_trip (textureWorld true 1 (some 0)) brickPath brickOut
      (blankImage 4 4 1 1) rfl).1 rfl,
   (texture_format_round_trip (textureWorld true 3 (some 0)) brickPath brickOut
      (blankImage 4 4 3 3) rfl).2 rfl⟩

/-! ## Category directories (C12) -/

/-- Without a `skyboxes` directory `main` ends in the exception `dirCountInDir` throws,
before it looks at textures or models. -/
theorem main_without_skyboxes (epsilon : Nat) (conv : Converters) (fs : FileSystem)
    (bakedAssetDir : String) (cacheFile : CacheFile) (oldCache : Cache)
    (hload : loadCache cacheFile = some oldCache) (hdir : fs.assetsDirIsDirectory = true)
    (hsky : fs.skyboxes = .absent) :
    main epsilon conv fs bakedAssetDir cacheFile = .aborted := by
  simp [main, hload, hdir, bakeSkyboxes, hsky, Outcome.bind]

/-- C12 fails on the code: with no `skyboxes` directory (and a texture to bake) `main`
aborts, so it bakes no texture and writes neither the listings nor the cache; with no
`textures` directory it runs to the end, and writes both. -/
theorem missing_skyboxes_aborts_main :
    (match main 0 (constantConverters true) noSkyboxFileSystem "baked" .absent with
      | .aborted => true
      | _ => false) = true ∧
    (match main 0 (constantConverters true) noTextureFileSystem "baked" .absent with
      | .returned r => some (r.exitCode, r.outputData.isSome, r.savedCache.isSome)
      | _ => none) = some (0, true, true) := by
  decide

/-! ## Cube map channels, stride and source size (C17, C18, C19) -/

/-- Built with `assert`, `convertCubeMapTexture` aborts on faces that agree and are aligned
but do not have three channels. -/
theorem convertFaces_wrong_channels (world : World) (inputDir outputFilename : String)
    (fs : Faces) (hasserts : world.assertsEnabled = true) (hsame : facesMismatch fs = false)
    (hw : fs.front.width % 4 = 0) (hh : fs.front.height % 4 = 0)
    (hc : fs.front.channels ≠ 3) :
    convertFaces world inputDir outputFilename fs = .aborted := by
  have htop := (facesMismatch_eq_false fs hsame fs.top (by simp [Faces.all])).2.2
  have hc3 : fs.top.channels ≠ 3 := by rw [htop]; exact hc
  simp [convertFaces, hsame, hw, hh, hasserts, hc3]

/-- C17 fails on the code: six 8 by 8 faces that load, agree and are block-aligned, from
files of 4 channels or of 1.  Built with `assert`, `convertCubeMapTexture` aborts the run;
built without, it copies past the end of the decoded faces for 4 channels, and for 1 channel
it returns true and has written the output file. -/
theorem cubemap_wrong_channels :
    convertCubeMapTexture (channelWorld true 4) skyDir skyOut = .aborted ∧
    convertCubeMapTexture (channelWorld true 1) skyDir skyOut = .aborted ∧
    convertCubeMapTexture (channelWorld false 4) skyDir skyOut = .undefined ∧
    (match convertCubeMapTexture (channelWorld false 1) skyDir skyOut with
      | .returned c => some (c.result, c.saved.map Prod.fst)
      | _ => none) = some (true, [skyOut]) := by
  decide

theorem convertFaces_accepted_fits (world : World) (inputDir outputFilename : String)
    (fs : Faces) (hacc : fs.Accepted) (c : Converted)
    (h : convertFaces world inputDir outputFilename fs = .returned c) : fs.Fits := by
  by_contra hnf
  have heq := facesMismatch_eq_false fs hacc.2.1
  obtain ⟨hdec, hsame, hw, hh, hc⟩ := hacc
  have hfront := hdec fs.front (by simp [Faces.all])
  simp only [Image.Decoded, STBI_rgb] at hfront
  have hlt : fs.front.width * fs.front.height * 3 < 2 ^ 31 := by
    have := hfront.2.2.2.2
    simpa using this
  have htop := heq fs.top (by simp [Faces.all])
  unfold Faces.Fits at hnf
  have hn : u32 (fs.front.width * fs.front.height * fs.front.channels) =
      fs.front.width * fs.front.height * 3 := by
    rw [hc]
    exact Nat.mod_eq_of_lt (by omega)
  have hwrap : u32 (fs.front.width * fs.front.height * 3 * 6) <
      fs.front.width * fs.front.height * 3 * 6 := by
    have : u32 (fs.front.width * fs.front.height * 3 * 6) < 2 ^ 32 :=
      Nat.mod_lt _ (by norm_num)
    omega
  have hassert : ¬ (world.assertsEnabled = true ∧ fs.top.channels ≠ 3) := by
    rw [htop.2.2, hc]
    simp
  have hdims : ¬ (fs.front.width % 4 ≠ 0 ∨ fs.front.height % 4 ≠ 0) := by
    simp [hw, hh]
  simp only [convertFaces, hsame, Bool.false_eq_true, if_false, hdims, hassert, hn, hwrap,
    true_or, if_true] at h
  cases h

theorem stacked_size (a h : Nat) (hh : h % 4 = 0) :
    6 * (a * ((h + 3) / 4) * 8) = a * ((6 * h + 3) / 4) * 8 := by
  obtain ⟨b, rfl⟩ : ∃ b, h = 4 * b := ⟨h / 4, by omega⟩
  have h1 : (4 * b + 3) / 4 = b := by omega
  have h2 : (6 * (4 * b) + 3) / 4 = 6 * b := by omega
  rw [h1, h2]
  ring

/-- The data size `convertCubeMapTexture` declares for its source texture: the face size
times the channel count twice, times six. -/
theorem convertFaces_dwDataSize (world : World) (inputDir outputFilename : String)
    (fs : Faces) (c : Converted)
    (h : convertFaces world inputDir outputFilename fs = .returned c) :
    ∀ src ∈ c.compressed, src.dwDataSize =
      u32 (fs.top.width * fs.top.height * fs.top.channels * fs.top.channels * 6) := by
  simp only [convertFaces] at h
  split_ifs at h <;> simp only [Outcome.returned.injEq] at h <;> subst h <;> simp

/-- C19 fails on the code: for six 8 by 8 RGB faces the source texture handed to the
compressor declares `dwDataSize = 3456` (8 * 8 * 3 * 3 * 6) while the buffer it carries
holds 1152 bytes (6 * 8 * 8 * 3). -/
theorem cubemap_source_size_is_tripled :
    (match convertCubeMapTexture (skyWorld 8 (some 0)) skyDir skyOut with
      | .returned c => c.compressed.map (fun src => (src.dwDataSize, src.pData.length))
      | _ => []) = [(3456, 1152)] := by
  decide

/-! ## convertModel (C13, C14, C20) -/

theorem Outcome.bind_returned {α β : Type} {x : Outcome α} {f : α → Outcome β} {c : β}
    (h : x.bind f = .returned c) : ∃ a, x = .returned a ∧ f a = .returned c := by
  cases x with
  | aborted => cases h
  | undefined => cases h
  | returned a => exact ⟨a, rfl, h⟩

theorem convertLoadedModel_result (world : World) (inputPath outputFileName : String)
    (model : tinygltf.Model) (c : ModelConverted)
    (h : convertLoadedModel world inputPath outputFileName model = .returned c) :
    c.result = false := by
  unfold convertLoadedModel at h
  simp only [bind, pure] at h
  iterate 25 (
    obtain ⟨a, -, h⟩ := Outcome.bind_returned h
    try dsimp only at h)
  cases h
  rfl

/-- Whenever `convertModel` returns, it returns false: each of its `return` statements,
the last one after `saveAssetFile` included, is `return false`. -/
theorem convertModel_result (world : World) (LoadBinaryFromMemory : String → GltfLoad)
    (inputPath outputFileName : String) (c : ModelConverted)
    (h : convertModel world LoadBinaryFromMemory inputPath outputFileName = .returned c) :
    c.result = false := by
  unfold convertModel at h
  simp only at h
  split_ifs at h
  · cases h; rfl
  · cases h; rfl
  · cases h; rfl
  · exact convertLoadedModel_result _ _ _ _ _ h

/-- C13 fails on the code: for the minimal triangle model (one mesh, one primitive, a
position attribute and indices, no normal, no UV, no material), built with or without
`assert`, `convertModel` writes one output file whose info has normal and UV sizes 0 and
base colour (0, 0, 0, 0), and returns false. -/
theorem minimal_model_returns_false :
    convertModel (textureWorld true 3 (some 0)) (loaderOf minimalModel) triPath triOut =
      .returned { result := false, compressed := [], saved := [(triOut, minimalPacked)] } ∧
    convertModel (textureWorld false 3 (some 0)) (loaderOf minimalModel) triPath triOut =
      .returned { result := false, compressed := [], saved := [(triOut, minimalPacked)] } ∧
    minimalPacked.info.normalAttributeSize = 0 ∧ minimalPacked.info.uvAttributeSize = 0 ∧
    minimalPacked.info.baseColor =
      [.narrow ⟨0, 0⟩, .narrow ⟨0, 0⟩, .narrow ⟨0, 0⟩, .narrow ⟨0, 0⟩] := by
  refine ⟨by decide, by decide, rfl, rfl, rfl⟩

/-- C20 fails on the code.  For a triangle whose buffer starts with the indices (position at
byte 8, normal at 44, UV at 80), the pointers handed to the packer are at bytes 16, 52 and
88: the least offset is added a second time.  For a triangle whose indices lie in buffer 1
and whose attributes lie in buffer 0, the three attribute pointers point into buffer 1. -/
theorem model_attribute_pointers_are_displaced :
    (match convertModel (textureWorld true 3 (some 0)) (loaderOf indicesFirstModel) triPath
        triOut with
      | .returned c => c.saved.map (fun f =>
          (f.2.positionAttributeData, f.2.normalAttributeData, f.2.uvAttributeData))
      | _ => []) = [(⟨0, 16⟩, ⟨0, 52⟩, ⟨0, 88⟩)] ∧
    (match convertModel (textureWorld true 3 (some 0)) (loaderOf indicesApartModel) triPath
        triOut with
      | .returned c => c.saved.map (fun f =>
          (f.2.positionAttributeData, f.2.normalAttributeData, f.2.uvAttributeData))
      | _ => []) = [(⟨1, 0⟩, ⟨1, 36⟩, ⟨1, 72⟩)] := by
  decide

/-- C14, as stated, fails: for a triangle whose position, normal and UV byte ranges lie
apart in one buffer (at 0, 100 and 200), built with `assert`, `convertModel` writes the
output file. -/
theorem scattered_attributes_are_baked :
    (match convertModel (textureWorld true 3 (some 0)) (loaderOf scatteredModel) triPath
        triOut with
      | .returned c => c.saved.map Prod.fst
      | _ => []) = [triOut] := by
  decide

theorem assertThat_bind_aborted {β : Type} (assertsEnabled condition : Bool)
    (f : Unit → Outcome β) (h : ∀ u, f u = .aborted) :
    (assertThat assertsEnabled condition).bind f = .aborted := by
  unfold assertThat
  split
  · rfl
  · exact h ()

theorem orUndefined_bind {α β : Type} {x : Option α} {a : α} (f : α → Outcome β)
    (h : x = some a) : (orUndefined x).bind f = f a := by
  subst h
  rfl

theorem orThrow_bind {α β : Type} {x : Option α} {a : α} (f : α → Outcome β)
    (h : x = some a) : (orThrow x).bind f = f a := by
  subst h
  rfl

theorem populateAttributeMetadata_some (model : tinygltf.Model) (keyString : String)
    (gltfPrimitive : tinygltf.Primitive) (p : gltfAttributeMetadata)
    (h : populateAttributeMetadata model keyString gltfPrimitive = some p) :
    (∃ accessor, findAttribute gltfPrimitive.attributes keyString = some accessor) ∧
    ∃ gltfAccessor, model.accessors[p.accessorIndex]? = some gltfAccessor := by
  simp only [populateAttributeMetadata, Option.bind_eq_some, Option.map_eq_some'] at h
  obtain ⟨accessor, hfind, gltfAccessor, hacc, view, _, hp⟩ := h
  subst hp
  exact ⟨⟨accessor, hfind⟩, gltfAccessor, hacc⟩

theorem optionalAttribute_mismatch (world : World) (model : tinygltf.Model)
    (keyString : String) (gltfPrimitive : tinygltf.Primitive)
    (positionAttribute metadata : gltfAttributeMetadata)
    (hasserts : world.assertsEnabled = true)
    (h : populateAttributeMetadata model keyString gltfPrimitive = some metadata)
    (hne : metadata.bufferIndex ≠ positionAttribute.bufferIndex) :
    optionalAttribute world model keyString gltfPrimitive positionAttribute = .aborted := by
  obtain ⟨⟨accessor, hfind⟩, _⟩ := populateAttributeMetadata_some _ _ _ _ h
  have hne1 : ¬ positionAttribute.bufferIndex = metadata.bufferIndex := fun e => hne e.symm
  simp [optionalAttribute, hfind, h, orThrow, assertThat, hasserts, hne1, bind, Outcome.bind]

theorem optionalAttribute_ne_undefined (world : World) (model : tinygltf.Model)
    (keyString : String) (gltfPrimitive : tinygltf.Primitive)
    (positionAttribute : gltfAttributeMetadata) :
    optionalAttribute world model keyString gltfPrimitive positionAttribute ≠ .undefined := by
  unfold optionalAttribute
  cases findAttribute gltfPrimitive.attributes keyString with
  | none => simp
  | some accessor =>
    cases populateAttributeMetadata model keyString gltfPrimitive with
    | none => simp [orThrow, bind, Outcome.bind]
    | some metadata =>
      cases ha : world.assertsEnabled <;>
        by_cases hb : positionAttribute.bufferIndex = metadata.bufferIndex <;>
        simp [orThrow, bind, Outcome.bind, assertThat, pure, ha, hb]

/-- C14 (amended): built with `assert`, `convertModel` aborts, writing no output file, for
every parsed model (whose position accessor carries its three bounds) in which a present
normal or UV attribute resolves to a different buffer than the position attribute.  (No
statement about byte ranges that are not contiguous: `convertModel` does not check them.) -/
theorem cross_buffer_attribute_aborts (world : World)
    (LoadBinaryFromMemory : String → GltfLoad) (inputPath outputFileName : String)
    (gltfMesh : tinygltf.Mesh) (gltfPrimitive : tinygltf.Primitive)
    (positionAttribute : gltfAttributeMetadata)
    (hasserts : world.assertsEnabled = true)
    (hwarn : (LoadBinaryFromMemory inputPath).warn = "")
    (herr : (LoadBinaryFromMemory inputPath).err = "")
    (hret : (LoadBinaryFromMemory inputPath).ret = true)
    (hmesh : (LoadBinaryFromMemory inputPath).model.meshes[0]? = some gltfMesh)
    (hprim : gltfMesh.primitives[0]? = some gltfPrimitive)
    (hpos : populateAttributeMetadata (LoadBinaryFromMemory inputPath).model "POSITION"
      gltfPrimitive = some positionAttribute)
    (hbounds : ∀ gltfAccessor,
      (LoadBinaryFromMemory inputPath).model.accessors[positionAttribute.accessorIndex]? =
        some gltfAccessor →
      3 ≤ gltfAccessor.minValues.length ∧ 3 ≤ gltfAccessor.maxValues.length)
    (hcross :
      (∃ normalAttribute, populateAttributeMetadata (LoadBinaryFromMemory inputPath).model
          "NORMAL" gltfPrimitive = some normalAttribute ∧
        normalAttribute.bufferIndex ≠ positionAttribute.bufferIndex) ∨
      (∃ texture0Attribute, populateAttributeMetadata (LoadBinaryFromMemory inputPath).model
          "TEXCOORD_0" gltfPrimitive = some texture0Attribute ∧
        texture0Attribute.bufferIndex ≠ positionAttribute.bufferIndex)) :
    convertModel world LoadBinaryFromMemory inputPath outputFileName = .aborted := by
  obtain ⟨_, gltfAccessor, hacc⟩ := populateAttributeMetadata_some _ _ _ _ hpos
  obtain ⟨hmin, hmax⟩ := hbounds gltfAccessor hacc
  unfold convertModel
  simp only [hwarn, herr, hret, ne_eq, not_true_eq_false, if_false, Bool.not_true,
    Bool.false_eq_true]
  unfold convertLoadedModel
  simp only [bind, pure]
  apply assertThat_bind_aborted
  intro _
  rw [orUndefined_bind _ hmesh]
  apply assertThat_bind_aborted
  intro _
  rw [orUndefined_bind _ hprim]
  apply assertThat_bind_aborted
  intro _
  apply assertThat_bind_aborted
  intro _
  rw [orThrow_bind _ hpos, orUndefined_bind _ hacc,
    orUndefined_bind _ (List.getElem?_eq_getElem (show 0 < gltfAccessor.minValues.length by omega)),
    orUndefined_bind _ (List.getElem?_eq_getElem (show 1 < gltfAccessor.minValues.length by omega)),
    orUndefined_bind _ (List.getElem?_eq_getElem (show 2 < gltfAccessor.minValues.length by omega)),
    orUndefined_bind _ (List.getElem?_eq_getElem (show 0 < gltfAccessor.maxValues.length by omega)),
    orUndefined_bind _ (List.getElem?_eq_getElem (show 1 < gltfAccessor.maxValues.length by omega)),
    orUndefined_bind _ (List.getElem?_eq_getElem (show 2 < gltfAccessor.maxValues.length by omega))]
  rcases hcross with ⟨n, hn, hne⟩ | ⟨t, ht, hne⟩
  · rw [optionalAttribute_mismatch world _ _ _ positionAttribute n hasserts hn hne]
    rfl
  · cases hopt : optionalAttribute world (LoadBinaryFromMemory inputPath).model "NORMAL"
        gltfPrimitive positionAttribute with
    | aborted => rfl
    | undefined => exact absurd hopt (optionalAttribute_ne_undefined _ _ _ _ _)
    | returned x =>
      simp only [Outcome.bind]
      rw [optionalAttribute_mismatch world _ _ _ positionAttribute t hasserts ht hne]

/-- C14 (amended) at a triangle whose normal attribute lies in a second buffer. -/
theorem cross_buffer_attribute_aborts_witness :
    populateAttributeMetadata crossBufferModel "NORMAL"
        { attributes := [("NORMAL", 1), ("POSITION", 0), ("TEXCOORD_0", 2)], indices := 3,
          material := -1 } = some ⟨1, 3, 1, 1, 0, 36⟩ ∧
    convertModel (textureWorld true 3 (some 0)) (loaderOf crossBufferModel) triPath triOut =
      .aborted :=
  ⟨by decide,
   cross_buffer_attribute_aborts (textureWorld true 3 (some 0)) (loaderOf crossBufferModel)
    triPath triOut
    { primitives := [{ attributes := [("NORMAL", 1), ("POSITION", 0), ("TEXCOORD_0", 2)],
                       indices := 3, material := -1 }] }
    { attributes := [("NORMAL", 1), ("POSITION", 0), ("TEXCOORD_0", 2)], indices := 3,
      material := -1 }
    ⟨0, 3, 0, 0, 0, 36⟩ rfl rfl rfl rfl rfl rfl (by decide)
    (by
      intro gltfAccessor h
      have h1 : gltfAccessor = vec3Accessor 0 := by
        simpa [loaderOf, crossBufferModel, triangleModel] using h.symm
      subst h1
      decide)
    (Or.inl ⟨⟨1, 3, 1, 1, 0, 36⟩, by decide, by decide⟩)⟩

/-! ## What `main` records (C11) -/

/-- What a loop of `main` pushes onto `bakedFilePaths`: in visit order, the paths of the
entries that are not up to date, are of the wanted kind and, in a loop that looks at the
return value, on which the converter returned true; nothing in a loop that drops it. -/
theorem bakeEntries_bakedFilePaths (upToDate : String → Bool) (wanted : DirEntry → Bool)
    (exportPath : String → String) (kind : ConverterKind)
    (convert : String → String → Outcome Bool) (remember : Bool) (entries : List DirEntry)
    (st st1 : BakeState)
    (h : bakeEntries upToDate wanted exportPath kind convert remember entries st =
      .returned st1) :
    st1.bakedFilePaths = st.bakedFilePaths ++
      (entries.filter (fun e => !upToDate e.path && wanted e && remember &&
        decide (convert e.path (exportPath e.path) = .returned true))).map DirEntry.path := by
  induction entries generalizing st with
  | nil =>
    simp only [bakeEntries, Outcome.returned.injEq] at h
    subst h
    simp
  | cons entry rest ih =>
    unfold bakeEntries at h
    by_cases hu : upToDate entry.path = true
    · rw [if_pos hu] at h
      rw [ih st h]
      simp [hu]
    · rw [if_neg hu] at h
      by_cases hw : wanted entry = true
      · rw [if_pos hw] at h
        cases hc : convert entry.path (exportPath entry.path) with
        | aborted => rw [hc] at h; cases h
        | undefined => rw [hc] at h; cases h
        | returned ok =>
          rw [hc] at h
          rw [ih _ h]
          cases remember <;> cases ok <;> simp [hu, hw, hc]
      · rw [if_neg hw] at h
        rw [ih st h]
        simp [hw]

/-- The model loop of `main` leaves `bakedFilePaths` as it found it, whatever `convertModel`
returns. -/
theorem bakeModels_bakedFilePaths (epsilon : Nat) (conv : Converters) (fs : FileSystem)
    (bakedAssetDir : String) (c : Cache) (st st1 : BakeState)
    (h : bakeModels epsilon conv fs bakedAssetDir c st = .returned st1) :
    st1.bakedFilePaths = st.bakedFilePaths := by
  unfold bakeModels at h
  cases hdir : fs.models with
  | absent =>
    rw [hdir] at h
    simp only [Outcome.returned.injEq] at h
    subst h
    rfl
  | notDirectory => rw [hdir] at h; cases h
  | directory entries =>
    rw [hdir] at h
    rw [bakeEntries_bakedFilePaths _ _ _ _ _ _ _ _ _ h]
    simp

/-- C11 fails on the code: with one model file, the minimal triangle, stale (no cache
file), `main` calls `convertModel` on it, `convertModel` writes the baked model file, and
after the three loops `bakedFilePaths` is empty. -/
theorem baked_model_is_not_recorded :
    (match main 0 (convertersWith (textureWorld true 3 (some 0)) (loaderOf minimalModel))
        modelFileSystem "baked" .absent with
      | .returned r => some (r.exitCode, r.bakedFilePaths, r.invocations)
      | _ => none) = some (0, [], [⟨.model, triPath, triOut⟩]) ∧
    (match convertModel (textureWorld true 3 (some 0)) (loaderOf minimalModel) triPath triOut
        with
      | .returned c => c.saved.map Prod.fst
      | _ => []) = [triOut] := by
  constructor <;> decide

end AssetBaker
